import Mathlib

/-!
Verification development for the nc-userimporter repository.

The Python sources are shallowly embedded: each Python function that the
claims touch is translated into an executable Lean definition with the same
name where possible.  Python strings are Lean `String`s, Python sets are
`Finset String`, Python dictionaries with a fixed key shape are structures,
and the interactive/remote effects (HTTP calls, `input()`) are passed in as
explicit oracle functions so that the pure decision logic of the source is
preserved exactly.

String primitives used by the source (`str.strip`, `str.lower`,
`str.split`) are modelled on `List Char`; `lower` is modelled on the ASCII
range, which is the range exercised by the username/email/group machinery.
-/

namespace NcUserImporter

/-- Model of Python `str.strip`'s whitespace test. -/
def isSpace (c : Char) : Bool := c.isWhitespace

/-- Leading-whitespace removal, first half of Python `str.strip()`. -/
def stripLeft (l : List Char) : List Char := l.dropWhile isSpace

/-- Trailing-whitespace removal, second half of Python `str.strip()`. -/
def stripRight (l : List Char) : List Char := (l.reverse.dropWhile isSpace).reverse

/-- Model of Python `str.strip()` (no arguments): remove leading and
trailing whitespace. -/
def pyStrip (s : String) : String := String.mk (stripRight (stripLeft s.data))

/-- ASCII case-folding table: each uppercase letter paired with its
lowercase form.  Models the letter range relevant to `str.lower()`. -/
def asciiLowerTable : List (Char × Char) :=
  [('A','a'),('B','b'),('C','c'),('D','d'),('E','e'),('F','f'),('G','g'),
   ('H','h'),('I','i'),('J','j'),('K','k'),('L','l'),('M','m'),('N','n'),
   ('O','o'),('P','p'),('Q','q'),('R','r'),('S','s'),('T','t'),('U','u'),
   ('V','v'),('W','w'),('X','x'),('Y','y'),('Z','z')]

/-- Lowercase one character (ASCII model of Python case folding). -/
def pyCharLower (c : Char) : Char :=
  ((asciiLowerTable.find? (fun p => p.1 == c)).map Prod.snd).getD c

/-- Model of Python `str.lower()` on the ASCII range. -/
def pyLower (s : String) : String := String.mk (s.data.map pyCharLower)

/-- Model of Python `str.split(sep)` for a one-character separator, on
character lists.  `''.split(sep) == ['']` holds in this model as in Python. -/
def pySplitCharList (sep : Char) : List Char → List (List Char)
  | [] => [[]]
  | c :: rest =>
    let r := pySplitCharList sep rest
    if c = sep then [] :: r
    else
      match r with
      | h :: t => (c :: h) :: t
      | [] => [[c]]

/-- Model of Python `str.split(sep)` for a one-character separator. -/
def pySplit (sep : Char) (s : String) : List String :=
  (pySplitCharList sep s.data).map String.mk

/-! ## Transliteration mapper (modules/mapping.py, user_sync.apply_mapping) -/

/-- The `MAPPING` dictionary of `modules/mapping.py`: special characters and
umlauts mapped to their ASCII-equivalent replacement strings, embedded as an
association list (keys are the `ord(...)` characters of the source). -/
def MAPPING : List (Char × String) :=
  [('Ä', "Ae"), ('ä', "ae"),
   ('Ö', "Oe"), ('ö', "oe"),
   ('Ü', "Ue"), ('ü', "ue"),
   ('ß', "ss"),
   ('Å', "A"), ('å', "a"),
   ('Ø', "Oe"), ('ø', "oe"),
   ('Æ', "Ae"), ('æ', "ae"),
   ('À', "A"), ('à', "a"),
   ('Á', "A"), ('á', "a"),
   ('Â', "A"), ('â', "a"),
   ('Ã', "A"), ('ã', "a"),
   ('Ç', "C"), ('ç', "c"),
   ('È', "E"), ('è', "e"),
   ('É', "E"), ('é', "e"),
   ('Ê', "E"), ('ê', "e"),
   ('Ë', "E"), ('ë', "e"),
   ('Ì', "I"), ('ì', "i"),
   ('Í', "I"), ('í', "i"),
   ('Î', "I"), ('î', "i"),
   ('Ï', "I"), ('ï', "i"),
   ('Ð', "D"), ('ð', "d"),
   ('Ñ', "N"), ('ñ', "n"),
   ('Ò', "O"), ('ò', "o"),
   ('Ó', "O"), ('ó', "o"),
   ('Ô', "O"), ('ô', "o"),
   ('Õ', "O"), ('õ', "o"),
   ('Œ', "Oe"), ('œ', "oe"),
   ('Ù', "U"), ('ù', "u"),
   ('Ú', "U"), ('ú', "u"),
   ('Û', "U"), ('û', "u"),
   ('Ý', "Y"), ('ý', "y"),
   ('Ÿ', "Y"), ('ÿ', "y"),
   ('Þ', "Th"), ('þ', "Th"),
   ('Š', "S"), ('š', "s"),
   ('Č', "C"), ('č', "c"),
   ('А', "A"), ('а', "a"),
   ('Б', "B"), ('б', "b"),
   ('В', "V"), ('в', "v"),
   ('Г', "G"), ('г', "g"),
   ('Д', "D"), ('д', "d"),
   ('Е', "E"), ('е', "e"),
   ('Ё', "E"), ('ё', "e"),
   ('Ж', "Zh"), ('ж', "zh"),
   ('З', "Z"), ('з', "z"),
   ('И', "I"), ('и', "i"),
   ('Й', "Y"), ('й', "y"),
   ('К', "K"), ('к', "k"),
   ('Л', "L"), ('л', "l"),
   ('М', "M"), ('м', "m"),
   ('Н', "N"), ('н', "n"),
   ('О', "O"), ('о', "o"),
   ('П', "P"), ('п', "p"),
   ('Р', "R"), ('р', "r"),
   ('С', "S"), ('с', "s"),
   ('Т', "T"), ('т', "t"),
   ('У', "U"), ('у', "u"),
   ('Ф', "F"), ('ф', "f"),
   ('Х', "Kh"), ('х', "kh"),
   ('Ц', "Ts"), ('ц', "ts"),
   ('Ч', "Ch"), ('ч', "ch"),
   ('Ш', "Sh"), ('ш', "sh"),
   ('Щ', "Shch"), ('щ', "shch"),
   ('Ъ', ""), ('ъ', ""),
   ('Ы', "Y"), ('ы', "y"),
   ('Ь', ""), ('ь', ""),
   ('Э', "E"), ('э', "e"),
   ('Ю', "Yu"), ('ю', "yu"),
   ('Я', "Ya"), ('я', "ya")]

/-- Translation of a single character under `MAPPING`, as performed per
character by Python `str.translate`: a mapped character becomes the
characters of its replacement string, an unmapped one passes through. -/
def mapChar (c : Char) : List Char :=
  match (MAPPING.find? (fun p => p.1 == c)).map Prod.snd with
  | some r => r.data
  | none => [c]

/-- `str.translate(MAPPING)` on a character list. -/
def applyMappingList (l : List Char) : List Char := (l.map mapChar).flatten

/-- `NextcloudUserManager.apply_mapping` (user_sync.py line 36):
`text.translate(MAPPING)`. -/
def apply_mapping (text : String) : String := String.mk (applyMappingList text.data)

/-! ## Password generator (modules/password.py) -/

/-- Python `string.ascii_uppercase`. -/
def string_ascii_uppercase : List Char := "ABCDEFGHIJKLMNOPQRSTUVWXYZ".data

/-- Python `string.ascii_lowercase`. -/
def string_ascii_lowercase : List Char := "abcdefghijklmnopqrstuvwxyz".data

/-- Python `string.ascii_letters` (lowercase then uppercase). -/
def string_ascii_letters : List Char := string_ascii_lowercase ++ string_ascii_uppercase

/-- Python `string.digits`. -/
def string_digits : List Char := "0123456789".data

/-- Python `string.punctuation` (32 ASCII punctuation characters); the
characters that are delimiter-like in Lean are written via `Char.ofNat`. -/
def string_punctuation : List Char :=
  ['!', Char.ofNat 34, '#', '$', '%', '&', Char.ofNat 39, '(', ')', '*', '+',
   ',', '-', '.', '/', ':', ';', '<', '=', '>', '?', '@', '[', Char.ofNat 92,
   ']', '^', '_', Char.ofNat 96, Char.ofNat 123, '|', Char.ofNat 125, '~']

/-- The `all_characters` pool of `PasswordGenerator.generate`:
`string.ascii_letters + string.digits + string.punctuation`. -/
def all_characters : List Char := string_ascii_letters ++ string_digits ++ string_punctuation

/-- `PasswordGenerator.__init__` (password.py lines 12-25): raises
`ValueError` when `length < 4`, otherwise stores the length.  The raise is
embedded as `none`. -/
def PasswordGenerator_init (length : Int) : Option Int :=
  if length < 4 then none else some length

/-- Model of `random.choice(seq)`: an element of `seq` selected by an
oracle index (reduced modulo the length, so the result is always a member
for nonempty `seq`). -/
def pyChoice (l : List Char) (i : Nat) : Char := l.getD (i % l.length) ' '

/-- `PasswordGenerator.generate` (password.py lines 27-58) up to the final
`random.shuffle`: one choice from each mandatory class followed by
`length - 4` choices from the full pool.  The oracle arguments stand for
the outcomes of `random.choice`; the shuffle is modelled in the theorems by
quantifying over permutations of this list. -/
def PasswordGenerator_generate_pre (length : Int) (iU iL iD iP : Nat) (rest : Nat → Nat) :
    List Char :=
  [pyChoice string_ascii_uppercase iU, pyChoice string_ascii_lowercase iL,
   pyChoice string_digits iD, pyChoice string_punctuation iP]
  ++ (List.range (length - 4).toNat).map (fun k => pyChoice all_characters (rest k))

/-! ## Data model (user_sync.py) -/

/-- A row of the desired-state CSV after `load_csv_users`: the fields
`check_for_modified_users` and the import pipeline read.  `groups` and
`subadmin` are the raw multi-valued CSV fields (not yet split). -/
structure CsvUser where
  username : String
  username_mapped : String
  displayname : String
  email : String
  password : String
  groups : String
  subadmin : String
deriving DecidableEq, Repr

/-- A fully populated remote user record (the dictionary produced by
`parse_users_from_response` after `populate_user_details` succeeded).
Group membership and subadmin sets live on the server as sets of group
ids, so they are embedded as `Finset String`. -/
structure RUser where
  id : String
  displayname : String
  email : String
  groups : Finset String
  subadmin : Finset String
deriving DecidableEq

/-- The `changes` dictionary built by `detect_changes`: per-field new
values, `none` meaning the key is absent. -/
structure ChangeSet where
  email : Option String
  displayname : Option String
  groups : Option (Finset String)
  subadmin : Option (Finset String)
deriving DecidableEq

/-- The empty `changes` dictionary. -/
def emptyChangeSet : ChangeSet := ⟨none, none, none, none⟩

/-- The CSV side of the groups comparison in `detect_changes` (lines
156, 162): `set(group.strip() for group in field.split(',') if group.strip())`
— comma-split, stripped, empty tokens dropped. -/
def csvGroupSet (field : String) : Finset String :=
  (((pySplit ',' field).map pyStrip).filter (fun g => g != "")).toFinset

/-- The remote side of the groups comparison in `detect_changes` (lines
157, 163): `set(group.strip() for group in nextcloud_user['groups'])`. -/
def ncGroupSet (groups : Finset String) : Finset String := groups.image pyStrip

/-- `NextcloudUserManager.detect_changes` (user_sync.py lines 128-167). -/
def detect_changes (csv_user : CsvUser) (nextcloud_user : RUser) : ChangeSet :=
  let csv_email := pyLower (pyStrip csv_user.email)
  let nextcloud_email := pyLower (pyStrip nextcloud_user.email)
  let csv_displayname := pyStrip csv_user.displayname
  let nextcloud_displayname := pyStrip nextcloud_user.displayname
  let csv_groups := csvGroupSet csv_user.groups
  let nextcloud_groups := ncGroupSet nextcloud_user.groups
  let csv_subadmin := csvGroupSet csv_user.subadmin
  let nextcloud_subadmin := ncGroupSet nextcloud_user.subadmin
  { email := if csv_email ≠ nextcloud_email then some csv_email else none
    displayname :=
      if csv_displayname ≠ nextcloud_displayname then some csv_displayname else none
    groups := if csv_groups ≠ nextcloud_groups then some csv_groups else none
    subadmin := if csv_subadmin ≠ nextcloud_subadmin then some csv_subadmin else none }

/-! Spec-side field-match predicates for the ChangeSet-emptiness contract,
written from section 4.3 / section 8 of the specification: email compares
case-insensitively after trimming, displayname exactly after trimming,
groups and subadmin as sets of trimmed group names. -/

/-- Spec: "the emails match case-insensitively after trimming". -/
def emailsMatch (csv_user : CsvUser) (nextcloud_user : RUser) : Prop :=
  pyLower (pyStrip csv_user.email) = pyLower (pyStrip nextcloud_user.email)

/-- Spec: "the displaynames match exactly after trimming". -/
def displaynamesMatch (csv_user : CsvUser) (nextcloud_user : RUser) : Prop :=
  pyStrip csv_user.displayname = pyStrip nextcloud_user.displayname

/-- Spec: "the group sets match" — the set of trimmed group names listed in
the CSV field against the trimmed remote group set. -/
def groupSetsMatch (csv_user : CsvUser) (nextcloud_user : RUser) : Prop :=
  csvGroupSet csv_user.groups = ncGroupSet nextcloud_user.groups

/-- Spec: "the subadmin group sets match", same method as the groups. -/
def subadminSetsMatch (csv_user : CsvUser) (nextcloud_user : RUser) : Prop :=
  csvGroupSet csv_user.subadmin = ncGroupSet nextcloud_user.subadmin

/-! ## Reconciliation engine (user_sync.py lines 71-268)

The engine is embedded as a transformer on the remote server state (a list
of populated `RUser` records).  Interactive `input()` answers are oracle
functions from usernames to the entered string; remote mutations are
assumed to succeed (the all-success run the claims talk about). -/

/-- The `csv_usernames` set of `check_for_deleted_users` (line 218). -/
def csv_usernames (csv_users : List CsvUser) : Finset String :=
  (csv_users.map CsvUser.username_mapped).toFinset

/-- The `nextcloud_usernames` set of `check_for_deleted_users` (line 219). -/
def nextcloud_usernames (nextcloud_users : List RUser) : Finset String :=
  (nextcloud_users.map RUser.id).toFinset

/-- The `deleted_users` set difference of `check_for_deleted_users`
(line 221): remote ids minus desired ids. -/
def deleted_users (csv_users : List CsvUser) (nextcloud_users : List RUser) :
    Finset String :=
  nextcloud_usernames nextcloud_users \ csv_usernames csv_users

/-- The per-candidate admin guard of `check_for_deleted_users` (lines
226-232): look the candidate up in the remote list (`next(...)`) and
prompt only when `'admin' not in nextcloud_user['groups']`. -/
def deletion_prompted (nextcloud_users : List RUser) (username : String) : Bool :=
  match nextcloud_users.find? (fun u => u.id == username) with
  | some u => decide ("admin" ∉ u.groups)
  | none => false

/-- The deletion candidates for which `prompt_user_deletion` is reached. -/
def prompted_deletions (csv_users : List CsvUser) (nextcloud_users : List RUser) :
    Finset String :=
  (deleted_users csv_users nextcloud_users).filter
    (fun username => deletion_prompted nextcloud_users username = true)

/-- The users actually deleted by `prompt_user_deletion` (lines 263-264):
prompted candidates whose interactive answer, lowercased, equals `'y'`
(the delete call itself is modelled as succeeding). -/
def deletions_confirmed (answers : String → String) (csv_users : List CsvUser)
    (nextcloud_users : List RUser) : Finset String :=
  (prompted_deletions csv_users nextcloud_users).filter
    (fun username => pyLower (answers username) = "y")

/-- Net effect of `check_for_deleted_users` (lines 217-232) on the server
state: every confirmed deletion is removed. -/
def check_for_deleted_users (answers : String → String) (csv_users : List CsvUser)
    (nextcloud_users : List RUser) : List RUser :=
  nextcloud_users.filter
    (fun u => decide (u.id ∉ deletions_confirmed answers csv_users nextcloud_users))

/-- Server-side effect of a successful `sync_user_to_groups`
(nextcloud_api.py lines 347-383): add `new - current`, remove
`current - new`. -/
def sync_user_to_groups_result (current_groups new_groups : Finset String) :
    Finset String :=
  let groups_to_add := new_groups \ current_groups
  let groups_to_remove := current_groups \ new_groups
  (current_groups ∪ groups_to_add) \ groups_to_remove

/-- Effect of `apply_changes_to_user` (user_sync.py lines 197-211) on one
remote record, all calls succeeding: `email`/`displayname` via
`edit_user`, `groups` via `sync_groups`, `subadmin` via
`sync_subadmin_groups` (both syncs fetch the live current set, here the
record's fields). -/
def apply_changes_record (u : RUser) (changes : ChangeSet) : RUser :=
  { u with
    email := changes.email.getD u.email
    displayname := changes.displayname.getD u.displayname
    groups :=
      match changes.groups with
      | some gs => sync_user_to_groups_result u.groups gs
      | none => u.groups
    subadmin :=
      match changes.subadmin with
      | some gs => sync_user_to_groups_result u.subadmin gs
      | none => u.subadmin }

/-- `apply_changes_to_user` lifted to the server state: the API calls
mutate the user with the given username. -/
def apply_changes_to_user (st : List RUser) (username : String) (changes : ChangeSet) :
    List RUser :=
  st.map (fun u => if u.id = username then apply_changes_record u changes else u)

/-- One iteration of the `check_for_modified_users` loop (lines 74-81) for
one CSV user: look the mapped username up in the dictionary built from the
loaded remote list (`snapshot`), detect changes against that snapshot
record, and on a non-empty ChangeSet apply them to the live state when the
interactive confirmation, lowercased, equals `'y'`. -/
def modify_step (confirms : String → String) (snapshot : List RUser)
    (st : List RUser) (c : CsvUser) : List RUser :=
  match snapshot.find? (fun u => u.id == c.username_mapped) with
  | some nextcloud_user =>
    let changes := detect_changes c nextcloud_user
    if changes = emptyChangeSet then st
    else if pyLower (confirms c.username_mapped) = "y" then
      apply_changes_to_user st c.username_mapped changes
    else st
  | none => st

/-- `check_for_modified_users` (lines 71-81) as a state transformer. -/
def check_for_modified_users (confirms : String → String) (csv_users : List CsvUser)
    (snapshot st : List RUser) : List RUser :=
  csv_users.foldl (modify_step confirms snapshot) st

/-- The `modify_step` transformation restricted to a single record; used to
reason about `check_for_modified_users` pointwise. -/
def modify_user_step (confirms : String → String) (snapshot : List RUser)
    (c : CsvUser) (u : RUser) : RUser :=
  match snapshot.find? (fun v => v.id == c.username_mapped) with
  | some nextcloud_user =>
    let changes := detect_changes c nextcloud_user
    if changes = emptyChangeSet then u
    else if pyLower (confirms c.username_mapped) = "y" then
      (if u.id = c.username_mapped then apply_changes_record u changes else u)
    else u
  | none => u

/-- Pointwise form of `check_for_modified_users`. -/
def modify_user (confirms : String → String) (csv_users : List CsvUser)
    (snapshot : List RUser) (u : RUser) : RUser :=
  csv_users.foldl (fun u c => modify_user_step confirms snapshot c u) u

/-- `compare_and_sync_users` (lines 83-96) after a fully successful load:
deletion detection runs first, then modification detection; both use the
remote list loaded at the start (`st`) as their snapshot. -/
def compare_and_sync_users (answers confirms : String → String)
    (csv_users : List CsvUser) (st : List RUser) : List RUser :=
  check_for_modified_users confirms csv_users st
    (check_for_deleted_users answers csv_users st)

/-- One engine run with every confirmation answered `'y'` and every remote
operation succeeding. -/
def run_engine (csv_users : List CsvUser) (st : List RUser) : List RUser :=
  compare_and_sync_users (fun _ => "y") (fun _ => "y") csv_users st

/-! ## The Load phase (user_sync.py lines 83-122) -/

/-- A remote user dictionary as built by `parse_users_from_response`
(nextcloud_api.py lines 159-171) and possibly completed by
`populate_user_details`: before population, `displayname`/`email` are
`None` and `groups`/`subadmin` are empty lists. -/
structure PartialNcUser where
  id : String
  displayname : Option String
  email : Option String
  groups : List String
  subadmin : List String
deriving DecidableEq, Repr

/-- Oracle for the per-user detail round-trips of the Load phase:
`get_user` (displayname and email on success), and the
`get_user_groups` / `get_user_subadmin_groups` requests. -/
structure DetailFetch where
  user_details : String → Option (String × String)
  user_groups : String → Option (List String)
  user_subadmin : String → Option (List String)

/-- `parse_users_from_response` (nextcloud_api.py lines 159-171): one
skeleton dictionary per listed id, falsy ids dropped. -/
def parse_users_from_response (ids : List String) : List PartialNcUser :=
  (ids.filter (fun id => id != "")).map
    (fun id => { id := id, displayname := none, email := none, groups := [], subadmin := [] })

/-- `get_user_groups` (nextcloud_api.py lines 277-286): the parsed group
list on success, `[]` on failure (the failure is only logged). -/
def get_user_groups (f : DetailFetch) (username : String) : List String :=
  (f.user_groups username).getD []

/-- `get_user_subadmin_groups` (nextcloud_api.py lines 393-400): same
shape as `get_user_groups`. -/
def get_user_subadmin_groups (f : DetailFetch) (username : String) : List String :=
  (f.user_subadmin username).getD []

/-- `populate_user_details` (user_sync.py lines 108-122) given a
successful `get_user` response carrying `displayname` and `email`. -/
def populate_user_details (f : DetailFetch) (u : PartialNcUser)
    (displayname email : String) : PartialNcUser :=
  { u with
    displayname := some displayname
    email := some email
    groups := get_user_groups f u.id
    subadmin := get_user_subadmin_groups f u.id }

/-- `fetch_and_populate_user_details` (user_sync.py lines 98-106): on a
failed or throwing `get_user` the error is logged and the record is left
as parsed. -/
def fetch_and_populate_user_details (f : DetailFetch) (u : PartialNcUser) : PartialNcUser :=
  match f.user_details u.id with
  | some (displayname, email) => populate_user_details f u displayname email
  | none => u

/-- The Load phase of `compare_and_sync_users` (lines 89-92): parse the
user listing, then populate each record in place. -/
def load_remote_users (f : DetailFetch) (ids : List String) : List PartialNcUser :=
  (parse_users_from_response ids).map (fetch_and_populate_user_details f)

/-- `deleted_users` of `check_for_deleted_users` computed on the loaded
(possibly partially populated) list, as the code does. -/
def deleted_usersP (csvIds : Finset String) (ncs : List PartialNcUser) : Finset String :=
  (ncs.map PartialNcUser.id).toFinset \ csvIds

/-- The admin guard of `check_for_deleted_users` on the loaded list. -/
def deletion_promptedP (ncs : List PartialNcUser) (username : String) : Bool :=
  match ncs.find? (fun u => u.id == username) with
  | some u => !(u.groups.contains "admin")
  | none => false

/-- Deletion candidates reaching `prompt_user_deletion`, computed on the
loaded list. -/
def prompted_deletionsP (csvIds : Finset String) (ncs : List PartialNcUser) :
    Finset String :=
  (deleted_usersP csvIds ncs).filter
    (fun username => deletion_promptedP ncs username = true)

/-- The key set of the `nextcloud_user_dict` that
`check_for_modified_users` (line 72) builds from the loaded list: the ids
eligible for modification detection. -/
def modification_candidate_ids (ncs : List PartialNcUser) : Finset String :=
  (ncs.map PartialNcUser.id).toFinset

/-! ## Import pipeline password handling (nc-user_manager.py lines 120-155) -/

/-- The dynamic value held by the `password` variable of
`create_users_and_groups`: a string from the CSV, or — after the
`PasswordGenerator(...)` call on line 135, which never invokes
`.generate()` — the generator object itself. -/
inductive PasswordValue where
  | str (s : String)
  | generatorObject (length : Int)
deriving DecidableEq, Repr

/-- Whether the value is a string. -/
def PasswordValue.isStr : PasswordValue → Bool
  | .str _ => true
  | .generatorObject _ => false

/-- Lines 127 and 134-135 of nc-user_manager.py: start from the CSV
password; when it is falsy (empty) and password generation is enabled,
execute `password = PasswordGenerator(config['password_length'])`. -/
def create_user_password (generate_password : String) (password_length : Int)
    (row_password : String) : PasswordValue :=
  if row_password = "" ∧ generate_password = "yes" then
    PasswordValue.generatorObject password_length
  else PasswordValue.str row_password

/-- A `users_to_process` entry (line 142): the credential result used for
QR/PDF artifact generation. -/
structure CredentialRecord where
  username : String
  password : PasswordValue
  displayname : String
deriving DecidableEq, Repr

/-- The credential record appended for a successfully created row. -/
def credential_record_for_row (generate_password : String) (password_length : Int)
    (username displayname row_password : String) : CredentialRecord :=
  { username := username
    password := create_user_password generate_password password_length row_password
    displayname := displayname }

/-- Line 130 of nc-user_manager.py:
`groups = row['groups'].split(config['group_delimiter'])` — the import
pipeline splits multi-valued fields on the configured delimiter. -/
def import_group_tokens (group_delimiter : Char) (field : String) : List String :=
  pySplit group_delimiter field

/-! ## Group-sync call traces (nextcloud_api.py lines 288-465)

For claim C6 the two sync functions are embedded as trace producers: they
return the success flag the Python function returns together with the list
of mutating API calls attempted, in order.  The outcomes of the underlying
HTTP requests are oracle parameters. -/

/-- Iteration order chosen for a Python `set` (Python leaves it
unspecified; the properties proved are order-independent). -/
def setToList (s : Finset String) : List String := s.sort (· ≤ ·)

/-- A mutating API call attempted during a group or subadmin sync. -/
inductive ApiCall where
  | createGroup (group : String)
  | addToGroup (group : String)
  | removeFromGroup (group : String)
  | promoteSubadmin (group : String)
  | demoteSubadmin (group : String)
deriving DecidableEq, Repr

/-- Group-creation calls. -/
def ApiCall.isCreate : ApiCall → Bool
  | .createGroup _ => true
  | _ => false

/-- Membership/role addition calls. -/
def ApiCall.isAddition : ApiCall → Bool
  | .addToGroup _ => true
  | .promoteSubadmin _ => true
  | _ => false

/-- Membership/role removal calls. -/
def ApiCall.isRemoval : ApiCall → Bool
  | .removeFromGroup _ => true
  | .demoteSubadmin _ => true
  | _ => false

/-- The creation loop of `ensure_groups_exist` (lines 311-320): each group
missing from the fetched set is created; a failed creation returns
`False` immediately. -/
def ensure_groups_exist_loop (existing : Finset String) (createOk : String → Bool) :
    List String → Bool × List ApiCall
  | [] => (true, [])
  | g :: rest =>
    if g ∈ existing then ensure_groups_exist_loop existing createOk rest
    else if createOk g then
      let r := ensure_groups_exist_loop existing createOk rest
      (r.1, ApiCall.createGroup g :: r.2)
    else (false, [ApiCall.createGroup g])

/-- `ensure_groups_exist` (lines 292-322): fetch the existing groups
(failure returns `False` before any creation), then create the missing
ones. -/
def ensure_groups_exist (get_groups_ok : Bool) (existing : Finset String)
    (createOk : String → Bool) (groups : List String) : Bool × List ApiCall :=
  if get_groups_ok then ensure_groups_exist_loop existing createOk groups
  else (false, [])

/-- `add_user_to_groups` (lines 324-327): the list comprehension posts one
add request per group — all attempted — and success is the conjunction. -/
def add_user_to_groups (addOk : String → Bool) (groups : List String) :
    Bool × List ApiCall :=
  (groups.all addOk, groups.map ApiCall.addToGroup)

/-- `remove_user_from_groups` (lines 329-345): one delete request per
group, returning `False` at the first failure. -/
def remove_user_from_groups (removeOk : String → Bool) :
    List String → Bool × List ApiCall
  | [] => (true, [])
  | g :: rest =>
    if removeOk g then
      let r := remove_user_from_groups removeOk rest
      (r.1, ApiCall.removeFromGroup g :: r.2)
    else (false, [ApiCall.removeFromGroup g])

/-- The `if groups_to_add:`-guarded `ensure_groups_exist` call of
`sync_user_to_groups` (lines 362-367). -/
def sync_groups_ens (get_groups_ok : Bool) (existing : Finset String)
    (createOk : String → Bool) (groups_to_add : List String) : Bool × List ApiCall :=
  if groups_to_add.isEmpty then (true, [])
  else ensure_groups_exist get_groups_ok existing createOk groups_to_add

/-- The `if groups_to_add:`-guarded `add_user_to_groups` call of
`sync_user_to_groups` (lines 369-374). -/
def sync_groups_adds (addOk : String → Bool) (groups_to_add : List String) :
    Bool × List ApiCall :=
  if groups_to_add.isEmpty then (true, [])
  else add_user_to_groups addOk groups_to_add

/-- The `if groups_to_remove:`-guarded `remove_user_from_groups` call of
`sync_user_to_groups` (lines 376-381). -/
def sync_groups_rems (removeOk : String → Bool) (groups_to_remove : List String) :
    Bool × List ApiCall :=
  if groups_to_remove.isEmpty then (true, [])
  else remove_user_from_groups removeOk groups_to_remove

/-- `sync_user_to_groups` (lines 347-383): ensure the groups to add exist,
then add, then remove, each phase aborting the rest on failure.  The
`groups_to_add`/`groups_to_remove` sets are iterated in some order
(`setToList`). -/
def sync_user_to_groups (get_groups_ok : Bool) (existing : Finset String)
    (createOk addOk removeOk : String → Bool)
    (current_groups new_groups : Finset String) : Bool × List ApiCall :=
  let groups_to_add := setToList (new_groups \ current_groups)
  let groups_to_remove := setToList (current_groups \ new_groups)
  let ens := sync_groups_ens get_groups_ok existing createOk groups_to_add
  if ens.1 = false then (false, ens.2)
  else
    let adds := sync_groups_adds addOk groups_to_add
    if adds.1 = false then (false, ens.2 ++ adds.2)
    else
      let rems := sync_groups_rems removeOk groups_to_remove
      (rems.1, ens.2 ++ adds.2 ++ rems.2)

/-- The promotion loop of `promote_user_in_group` (lines 418-424): one
post per group, returning `False` at the first failure. -/
def promote_loop (promoteOk : String → Bool) : List String → Bool × List ApiCall
  | [] => (true, [])
  | g :: rest =>
    if promoteOk g then
      let r := promote_loop promoteOk rest
      (r.1, ApiCall.promoteSubadmin g :: r.2)
    else (false, [ApiCall.promoteSubadmin g])

/-- `promote_user_in_group` (lines 402-424): its own `ensure_groups_exist`
call (second round-trip, own oracle values), then the promotions. -/
def promote_user_in_group (get_groups_ok2 : Bool) (existing2 : Finset String)
    (createOk2 promoteOk : String → Bool) (groups : List String) : Bool × List ApiCall :=
  let ens := ensure_groups_exist get_groups_ok2 existing2 createOk2 groups
  if ens.1 = false then (false, ens.2)
  else
    let pr := promote_loop promoteOk groups
    (pr.1, ens.2 ++ pr.2)

/-- `demote_user_in_group` (lines 426-429): a list comprehension issuing
every delete request; the Python return value is the response list. -/
def demote_user_in_group (groups : List String) : List ApiCall :=
  groups.map ApiCall.demoteSubadmin

/-- The `if subadmin_to_add:`-guarded outer `ensure_groups_exist` call of
`sync_subadmin_groups` (lines 446-451). -/
def sync_subadmin_ens (get_groups_ok : Bool) (existing : Finset String)
    (createOk : String → Bool) (subadmin_to_add : List String) : Bool × List ApiCall :=
  if subadmin_to_add.isEmpty then (true, [])
  else ensure_groups_exist get_groups_ok existing createOk subadmin_to_add

/-- The `if subadmin_to_add:`-guarded `promote_user_in_group` call of
`sync_subadmin_groups` (lines 453-457). -/
def sync_subadmin_promote (get_groups_ok2 : Bool) (existing2 : Finset String)
    (createOk2 promoteOk : String → Bool) (subadmin_to_add : List String) :
    Bool × List ApiCall :=
  if subadmin_to_add.isEmpty then (true, [])
  else promote_user_in_group get_groups_ok2 existing2 createOk2 promoteOk subadmin_to_add

/-- The `if subadmin_to_remove:`-guarded `demote_user_in_group` call of
`sync_subadmin_groups` (lines 459-463). -/
def sync_subadmin_demote (subadmin_to_remove : List String) : List ApiCall :=
  if subadmin_to_remove.isEmpty then ([] : List ApiCall)
  else demote_user_in_group subadmin_to_remove

/-- `sync_subadmin_groups` (lines 431-465): ensure groups to add exist,
promote (which ensures again internally), then demote.  The demote guard
`if not self.demote_user_in_group(...)` truth-tests the returned list, so
it only "fails" when that list is empty. -/
def sync_subadmin_groups (get_groups_ok : Bool) (existing : Finset String)
    (createOk : String → Bool) (get_groups_ok2 : Bool) (existing2 : Finset String)
    (createOk2 promoteOk : String → Bool)
    (current_subadmin new_subadmin : Finset String) : Bool × List ApiCall :=
  let subadmin_to_add := setToList (new_subadmin \ current_subadmin)
  let subadmin_to_remove := setToList (current_subadmin \ new_subadmin)
  let ens := sync_subadmin_ens get_groups_ok existing createOk subadmin_to_add
  if ens.1 = false then (false, ens.2)
  else
    let pr := sync_subadmin_promote get_groups_ok2 existing2 createOk2 promoteOk subadmin_to_add
    if pr.1 = false then (false, ens.2 ++ pr.2)
    else
      let dem := sync_subadmin_demote subadmin_to_remove
      ((if subadmin_to_remove.isEmpty then true else !dem.isEmpty), ens.2 ++ pr.2 ++ dem)

end NcUserImporter

namespace NcUserImporter

theorem dropWhile_idem (p : Char → Bool) (l : List Char) :
    (l.dropWhile p).dropWhile p = l.dropWhile p := by
  induction l with
  | nil => rfl
  | cons a t ih =>
    by_cases h : p a
    · simp [List.dropWhile, h, ih]
    · simp [List.dropWhile, h]

theorem stripLeft_idem (l : List Char) : stripLeft (stripLeft l) = stripLeft l :=
  dropWhile_idem isSpace l

theorem stripRight_idem (l : List Char) : stripRight (stripRight l) = stripRight l := by
  unfold stripRight
  rw [List.reverse_reverse, dropWhile_idem]

theorem dropWhile_head_false {p : Char → Bool} {l : List Char} {a : Char} {t : List Char}
    (h : l.dropWhile p = a :: t) : p a = false := by
  induction l with
  | nil => simp [List.dropWhile] at h
  | cons b r ih =>
    by_cases hb : p b
    · rw [List.dropWhile_cons_of_pos hb] at h
      exact ih h
    · rw [List.dropWhile_cons_of_neg hb] at h
      cases h
      simpa using hb

theorem dropWhile_append_singleton (p : Char → Bool) (xs : List Char) (a : Char)
    (ha : p a = false) :
    (xs ++ [a]).dropWhile p =
      (if (xs.dropWhile p).isEmpty then [a] else xs.dropWhile p ++ [a]) := by
  induction xs with
  | nil => simp [List.dropWhile, ha]
  | cons b r ih =>
    by_cases hb : p b
    · simpa [List.dropWhile_cons_of_pos hb] using ih
    · simp [List.dropWhile_cons_of_neg hb]

theorem stripRight_cons_of_neg {a : Char} (ha : isSpace a = false) (t : List Char) :
    stripRight (a :: t) = a :: stripRight t := by
  unfold stripRight
  have : (a :: t).reverse = t.reverse ++ [a] := by simp
  rw [this, dropWhile_append_singleton isSpace _ a ha]
  by_cases h : (t.reverse.dropWhile isSpace).isEmpty
  · rw [if_pos h]
    rw [List.isEmpty_iff] at h
    rw [h]
    rfl
  · rw [if_neg h]
    simp

theorem stripLeft_stripRight_stripLeft (l : List Char) :
    stripLeft (stripRight (stripLeft l)) = stripRight (stripLeft l) := by
  cases h : stripLeft l with
  | nil => simp [stripRight, stripLeft, List.dropWhile]
  | cons a t =>
    have ha : isSpace a = false := dropWhile_head_false h
    rw [stripRight_cons_of_neg ha]
    unfold stripLeft
    rw [List.dropWhile_cons_of_neg (by simp [ha])]

theorem pyStrip_idem (s : String) : pyStrip (pyStrip s) = pyStrip s := by
  unfold pyStrip
  rw [show (String.mk (stripRight (stripLeft s.data))).data
        = stripRight (stripLeft s.data) from rfl]
  rw [stripLeft_stripRight_stripLeft, stripRight_idem]

theorem pyCharLower_table_none {c : Char}
    (h : asciiLowerTable.find? (fun p => p.1 == c) = none) : pyCharLower c = c := by
  unfold pyCharLower
  rw [h]
  rfl

theorem pyCharLower_table_some {c : Char} {q : Char × Char}
    (h : asciiLowerTable.find? (fun p => p.1 == c) = some q) : pyCharLower c = q.2 := by
  unfold pyCharLower
  rw [h]
  rfl

theorem asciiLowerTable_values_not_keys :
    ∀ q ∈ asciiLowerTable, asciiLowerTable.find? (fun p => p.1 == q.2) = none := by
  decide

theorem asciiLowerTable_not_space :
    ∀ q ∈ asciiLowerTable, isSpace q.1 = false ∧ isSpace q.2 = false := by
  decide

theorem pyCharLower_idem (c : Char) : pyCharLower (pyCharLower c) = pyCharLower c := by
  cases h : asciiLowerTable.find? (fun p => p.1 == c) with
  | none => rw [pyCharLower_table_none h, pyCharLower_table_none h]
  | some q =>
    rw [pyCharLower_table_some h]
    have hq : q ∈ asciiLowerTable := List.mem_of_find?_eq_some h
    exact pyCharLower_table_none (asciiLowerTable_values_not_keys q hq)

theorem isSpace_pyCharLower (c : Char) : isSpace (pyCharLower c) = isSpace c := by
  cases h : asciiLowerTable.find? (fun p => p.1 == c) with
  | none => rw [pyCharLower_table_none h]
  | some q =>
    rw [pyCharLower_table_some h]
    have hq : q ∈ asciiLowerTable := List.mem_of_find?_eq_some h
    have hc : q.1 = c := by
      have := List.find?_some h
      simpa using this
    have h1 := (asciiLowerTable_not_space q hq).1
    have h2 := (asciiLowerTable_not_space q hq).2
    rw [h2, ← hc, h1]

theorem dropWhile_map_pyCharLower (l : List Char) :
    (l.map pyCharLower).dropWhile isSpace = (l.dropWhile isSpace).map pyCharLower := by
  induction l with
  | nil => rfl
  | cons a t ih =>
    by_cases h : isSpace a
    · rw [List.map_cons, List.dropWhile_cons_of_pos (by rw [isSpace_pyCharLower]; exact h),
        List.dropWhile_cons_of_pos h, ih]
    · rw [List.map_cons,
        List.dropWhile_cons_of_neg (by rw [isSpace_pyCharLower]; simpa using h),
        List.dropWhile_cons_of_neg (by simpa using h), List.map_cons]

theorem pyStrip_pyLower_comm (s : String) : pyStrip (pyLower s) = pyLower (pyStrip s) := by
  show String.mk (stripRight (stripLeft (s.data.map pyCharLower)))
      = String.mk ((stripRight (stripLeft s.data)).map pyCharLower)
  unfold stripRight stripLeft
  rw [dropWhile_map_pyCharLower, ← List.map_reverse, dropWhile_map_pyCharLower,
    ← List.map_reverse]

theorem pyLower_idem (s : String) : pyLower (pyLower s) = pyLower s := by
  show String.mk ((s.data.map pyCharLower).map pyCharLower) = String.mk (s.data.map pyCharLower)
  rw [List.map_map]
  congr 1
  apply List.map_congr_left
  intro a _
  exact pyCharLower_idem a

theorem pySplitCharList_no_sep {sep : Char} : ∀ {l : List Char}, sep ∉ l →
    pySplitCharList sep l = [l] := by
  intro l
  induction l with
  | nil => intro _; rfl
  | cons c rest ih =>
    intro h
    have hc : c ≠ sep := fun he => h (he ▸ List.mem_cons_self c rest)
    have hrest : sep ∉ rest := fun hm => h (List.mem_cons_of_mem c hm)
    unfold pySplitCharList
    rw [if_neg hc]
    rw [ih hrest]

theorem pySplit_no_sep {sep : Char} {s : String} (h : sep ∉ s.data) :
    pySplit sep s = [s] := by
  unfold pySplit
  rw [pySplitCharList_no_sep h]
  rfl

end NcUserImporter

namespace NcUserImporter

/-! ## Generic helper lemmas -/

theorem find?_key_eq_of_nodup {α : Type} (key : α → String) :
    ∀ (l : List α), (l.map key).Nodup → ∀ u ∈ l, l.find? (fun v => key v == key u) = some u := by
  intro l
  induction l with
  | nil => intro _ u hu; simp at hu
  | cons a t ih =>
    intro hnd u hu
    rw [List.map_cons, List.nodup_cons] at hnd
    rcases List.mem_cons.mp hu with h | h
    · subst h
      rw [List.find?_cons_of_pos _ (by simp)]
    · by_cases hk : key a = key u
      · exfalso
        exact hnd.1 (hk ▸ List.mem_map_of_mem key h)
      · rw [List.find?_cons_of_neg _ (by simpa using hk)]
        exact ih hnd.2 u h

/-! ## C8: transliteration mapper -/

set_option maxRecDepth 4096 in
theorem MAPPING_values_unmapped :
    ∀ q ∈ MAPPING, ∀ d ∈ q.2.data, MAPPING.find? (fun p => p.1 == d) = none := by
  decide

theorem mapChar_of_none {c : Char} (h : MAPPING.find? (fun p => p.1 == c) = none) :
    mapChar c = [c] := by
  unfold mapChar
  rw [h]
  rfl

theorem mapChar_of_some {c : Char} {q : Char × String}
    (h : MAPPING.find? (fun p => p.1 == c) = some q) : mapChar c = q.2.data := by
  unfold mapChar
  rw [h]
  rfl

theorem applyMappingList_append (a b : List Char) :
    applyMappingList (a ++ b) = applyMappingList a ++ applyMappingList b := by
  unfold applyMappingList
  rw [List.map_append, List.flatten_append]

theorem applyMappingList_fixed {l : List Char}
    (h : ∀ c ∈ l, MAPPING.find? (fun p => p.1 == c) = none) :
    applyMappingList l = l := by
  induction l with
  | nil => rfl
  | cons c t ih =>
    have : applyMappingList (c :: t) = mapChar c ++ applyMappingList t := rfl
    rw [this, mapChar_of_none (h c (List.mem_cons_self c t)),
      ih (fun d hd => h d (List.mem_cons_of_mem c hd))]
    rfl

theorem mapChar_chars_unmapped (c : Char) :
    ∀ d ∈ mapChar c, MAPPING.find? (fun p => p.1 == d) = none := by
  cases h : MAPPING.find? (fun p => p.1 == c) with
  | none =>
    rw [mapChar_of_none h]
    intro d hd
    rw [List.mem_singleton] at hd
    exact hd ▸ h
  | some q =>
    rw [mapChar_of_some h]
    exact MAPPING_values_unmapped q (List.mem_of_find?_eq_some h)

theorem applyMappingList_idem (l : List Char) :
    applyMappingList (applyMappingList l) = applyMappingList l := by
  induction l with
  | nil => rfl
  | cons c t ih =>
    have h1 : applyMappingList (c :: t) = mapChar c ++ applyMappingList t := rfl
    rw [h1, applyMappingList_append, ih, applyMappingList_fixed (mapChar_chars_unmapped c)]

/-- C8: `apply_mapping` (the transliteration of usernames via the fixed
`MAPPING` table) is a total function on strings and idempotent —
`apply_mapping (apply_mapping s) = apply_mapping s` for every string — and
every character outside the substitution table passes through unchanged. -/
theorem apply_mapping_idempotent_and_total :
    (∀ s : String, apply_mapping (apply_mapping s) = apply_mapping s) ∧
    (∀ c : Char, MAPPING.find? (fun p => p.1 == c) = none →
      apply_mapping (String.mk [c]) = String.mk [c]) := by
  constructor
  · intro s
    show String.mk (applyMappingList (applyMappingList s.data)) = _
    rw [applyMappingList_idem]
    rfl
  · intro c h
    show String.mk (applyMappingList [c]) = _
    have : applyMappingList [c] = mapChar c ++ applyMappingList [] := rfl
    rw [this, mapChar_of_none h]
    rfl

/-- Witness for C8 at the unmapped character `'x'`. -/
theorem apply_mapping_idempotent_and_total_witness :
    MAPPING.find? (fun p => p.1 == 'x') = none ∧
    apply_mapping (String.mk ['x']) = String.mk ['x'] :=
  ⟨by decide, apply_mapping_idempotent_and_total.2 'x' (by decide)⟩

/-! ## C9: password generator -/

theorem pyChoice_mem {l : List Char} (h : 0 < l.length) (i : Nat) : pyChoice l i ∈ l := by
  unfold pyChoice
  have hlt : i % l.length < l.length := Nat.mod_lt i h
  rw [List.getD_eq_getElem?_getD, List.getElem?_eq_getElem hlt]
  exact List.getElem_mem hlt

/-- C9: `PasswordGenerator` rejects construction exactly when the
requested length is below 4; for any admissible length, any random-choice
outcome and any shuffle, the generated password has exactly the requested
length and contains at least one character from each of the four mandatory
classes (uppercase, lowercase, digit, punctuation). -/
theorem PasswordGenerator_contract :
    (∀ length : Int, PasswordGenerator_init length = none ↔ length < 4) ∧
    (∀ (length : Int) (iU iL iD iP : Nat) (rest : Nat → Nat) (out : List Char),
      4 ≤ length →
      out.Perm (PasswordGenerator_generate_pre length iU iL iD iP rest) →
      out.length = length.toNat ∧
      (∃ c ∈ out, c ∈ string_ascii_uppercase) ∧
      (∃ c ∈ out, c ∈ string_ascii_lowercase) ∧
      (∃ c ∈ out, c ∈ string_digits) ∧
      (∃ c ∈ out, c ∈ string_punctuation)) := by
  constructor
  · intro length
    unfold PasswordGenerator_init
    by_cases h : length < 4
    · simp [h]
    · simp [h]
  · intro length iU iL iD iP rest out hlen hperm
    have hpre : (PasswordGenerator_generate_pre length iU iL iD iP rest).length
        = 4 + (length - 4).toNat := by
      unfold PasswordGenerator_generate_pre
      simp
      omega
    refine ⟨?_, ?_, ?_, ?_, ?_⟩
    · rw [hperm.length_eq, hpre]
      omega
    · refine ⟨pyChoice string_ascii_uppercase iU, ?_, pyChoice_mem (by decide) iU⟩
      rw [hperm.mem_iff]
      unfold PasswordGenerator_generate_pre
      simp
    · refine ⟨pyChoice string_ascii_lowercase iL, ?_, pyChoice_mem (by decide) iL⟩
      rw [hperm.mem_iff]
      unfold PasswordGenerator_generate_pre
      simp
    · refine ⟨pyChoice string_digits iD, ?_, pyChoice_mem (by decide) iD⟩
      rw [hperm.mem_iff]
      unfold PasswordGenerator_generate_pre
      simp
    · refine ⟨pyChoice string_punctuation iP, ?_, pyChoice_mem (by decide) iP⟩
      rw [hperm.mem_iff]
      unfold PasswordGenerator_generate_pre
      simp

/-- Witness for C9 at length 5 with the identity shuffle. -/
theorem PasswordGenerator_contract_witness :
    (PasswordGenerator_generate_pre 5 0 0 0 0 (fun _ => 0)).length = (5 : Int).toNat ∧
    (∃ c ∈ PasswordGenerator_generate_pre 5 0 0 0 0 (fun _ => 0), c ∈ string_ascii_uppercase) ∧
    (∃ c ∈ PasswordGenerator_generate_pre 5 0 0 0 0 (fun _ => 0), c ∈ string_ascii_lowercase) ∧
    (∃ c ∈ PasswordGenerator_generate_pre 5 0 0 0 0 (fun _ => 0), c ∈ string_digits) ∧
    (∃ c ∈ PasswordGenerator_generate_pre 5 0 0 0 0 (fun _ => 0), c ∈ string_punctuation) :=
  PasswordGenerator_contract.2 5 0 0 0 0 (fun _ => 0) _ (by decide) (List.Perm.refl _)

end NcUserImporter

namespace NcUserImporter

/-! ## C2: ChangeSet emptiness contract -/

/-- C2: for every desired CSV user and populated remote user,
`detect_changes` returns the empty ChangeSet exactly when the emails match
case-insensitively after trimming, the displaynames match exactly after
trimming, the group sets match, and the subadmin group sets match. -/
theorem detect_changes_empty_iff (csv_user : CsvUser) (nextcloud_user : RUser) :
    detect_changes csv_user nextcloud_user = emptyChangeSet ↔
      (emailsMatch csv_user nextcloud_user ∧ displaynamesMatch csv_user nextcloud_user ∧
       groupSetsMatch csv_user nextcloud_user ∧ subadminSetsMatch csv_user nextcloud_user) := by
  unfold detect_changes emptyChangeSet emailsMatch displaynamesMatch groupSetsMatch
    subadminSetsMatch
  constructor
  · intro h
    rw [ChangeSet.mk.injEq] at h
    obtain ⟨h1, h2, h3, h4⟩ := h
    refine ⟨?_, ?_, ?_, ?_⟩
    · by_contra hne
      rw [if_pos hne] at h1
      exact Option.some_ne_none _ h1
    · by_contra hne
      rw [if_pos hne] at h2
      exact Option.some_ne_none _ h2
    · by_contra hne
      rw [if_pos hne] at h3
      exact Option.some_ne_none _ h3
    · by_contra hne
      rw [if_pos hne] at h4
      exact Option.some_ne_none _ h4
  · intro ⟨h1, h2, h3, h4⟩
    rw [ChangeSet.mk.injEq]
    exact ⟨by rw [if_neg (by simpa using h1)], by rw [if_neg (by simpa using h2)],
      by rw [if_neg (by simpa using h3)], by rw [if_neg (by simpa using h4)]⟩

/-- Witness for C2: a drift-free pair yields the empty ChangeSet. -/
theorem detect_changes_empty_iff_witness :
    detect_changes
      { username := "alice", username_mapped := "alice", displayname := "Alice",
        email := "Alice@example.org", password := "", groups := "g1", subadmin := "s1" }
      { id := "alice", displayname := "Alice", email := "alice@example.org",
        groups := {"g1"}, subadmin := {"s1"} } = emptyChangeSet :=
  (detect_changes_empty_iff _ _).mpr
    ⟨by unfold emailsMatch; decide, by unfold displaynamesMatch; decide,
     by unfold groupSetsMatch; decide, by unfold subadminSetsMatch; decide⟩

/-! ## C10: modification detection splits on the literal comma -/

/-- C10: `detect_changes` splits the desired `groups`/`subadmin` fields on
the literal `','` irrespective of any configured group delimiter: a field
without a comma is compared as one single token, while the import pipeline
(`create_users_and_groups`) splits the same field on the configured
delimiter.  Shown in general for comma-free fields and concretely for the
delimiter `';'` on the field `"staff;teachers"`. -/
theorem detect_changes_comma_split :
    (∀ s : String, ',' ∉ s.data →
      csvGroupSet s = if pyStrip s = "" then (∅ : Finset String) else {pyStrip s}) ∧
    import_group_tokens ';' "staff;teachers" = ["staff", "teachers"] ∧
    csvGroupSet "staff;teachers" = {"staff;teachers"} ∧
    detect_changes
      { username := "carol", username_mapped := "carol", displayname := "Carol",
        email := "c@example.org", password := "", groups := "staff;teachers", subadmin := "" }
      { id := "carol", displayname := "Carol", email := "c@example.org",
        groups := {"staff", "teachers"}, subadmin := ∅ } ≠ emptyChangeSet := by
  refine ⟨?_, by decide, by decide, by decide⟩
  intro s hs
  unfold csvGroupSet
  rw [pySplit_no_sep hs]
  by_cases h : pyStrip s = ""
  · rw [if_pos h]
    show (([pyStrip s].filter (fun g => g != "")).toFinset = ∅)
    rw [h]
    rfl
  · rw [if_neg h]
    show (([pyStrip s].filter (fun g => g != "")).toFinset = {pyStrip s})
    rw [List.filter_cons_of_pos (by simpa using h)]
    rfl

/-- Witness for C10 on the comma-free field `"staff;teachers"`. -/
theorem detect_changes_comma_split_witness :
    csvGroupSet "staff;teachers"
      = if pyStrip "staff;teachers" = "" then (∅ : Finset String) else {pyStrip "staff;teachers"} :=
  detect_changes_comma_split.1 "staff;teachers" (by decide)

/-! ## C7: the import pipeline never calls PasswordGenerator.generate -/

/-- C7 (code bug evidence): for a CSV row with an empty password while
password generation is enabled, line 135 of nc-user_manager.py assigns the
`PasswordGenerator` object itself — `.generate()` is never invoked — so
the value supplied to the create-user call and recorded in the
`users_to_process` credential entry is not a password string at all, let
alone one satisfying the complexity contract.  A non-empty CSV password is
passed through as a string. -/
theorem create_user_password_object_bug :
    create_user_password "yes" 12 "" = PasswordValue.generatorObject 12 ∧
    (credential_record_for_row "yes" 12 "alice" "Alice" "").password.isStr = false ∧
    create_user_password "yes" 12 "secret" = PasswordValue.str "secret" := by
  decide

end NcUserImporter

namespace NcUserImporter

/-! ## Engine helper lemmas -/

theorem apply_changes_record_id (u : RUser) (changes : ChangeSet) :
    (apply_changes_record u changes).id = u.id := rfl

theorem apply_changes_record_empty (u : RUser) :
    apply_changes_record u emptyChangeSet = u := rfl

theorem modify_user_step_id (confirms : String → String) (snapshot : List RUser)
    (c : CsvUser) (u : RUser) : (modify_user_step confirms snapshot c u).id = u.id := by
  unfold modify_user_step
  cases hf : snapshot.find? (fun v => v.id == c.username_mapped) with
  | none => rfl
  | some ncu =>
    dsimp only
    by_cases h1 : detect_changes c ncu = emptyChangeSet
    · rw [if_pos h1]
    · rw [if_neg h1]
      by_cases h2 : pyLower (confirms c.username_mapped) = "y"
      · rw [if_pos h2]
        by_cases h3 : u.id = c.username_mapped
        · rw [if_pos h3, apply_changes_record_id]
        · rw [if_neg h3]
      · rw [if_neg h2]

theorem modify_user_id (confirms : String → String) (csv_users : List CsvUser)
    (snapshot : List RUser) (u : RUser) :
    (modify_user confirms csv_users snapshot u).id = u.id := by
  induction csv_users generalizing u with
  | nil => rfl
  | cons c t ih =>
    show (modify_user confirms t snapshot (modify_user_step confirms snapshot c u)).id = u.id
    rw [ih, modify_user_step_id]

theorem modify_step_map (confirms : String → String) (snapshot st : List RUser) (c : CsvUser) :
    modify_step confirms snapshot st c = st.map (modify_user_step confirms snapshot c) := by
  unfold modify_step modify_user_step
  cases hf : snapshot.find? (fun v => v.id == c.username_mapped) with
  | none => simp
  | some ncu =>
    dsimp only
    by_cases h1 : detect_changes c ncu = emptyChangeSet
    · rw [if_pos h1]
      simp [h1]
    · rw [if_neg h1]
      by_cases h2 : pyLower (confirms c.username_mapped) = "y"
      · rw [if_pos h2]
        unfold apply_changes_to_user
        simp [h1, h2]
      · rw [if_neg h2]
        simp [h1, h2]

theorem check_for_modified_users_map (confirms : String → String) (csv_users : List CsvUser)
    (snapshot : List RUser) : ∀ st : List RUser,
    check_for_modified_users confirms csv_users snapshot st
      = st.map (modify_user confirms csv_users snapshot) := by
  induction csv_users with
  | nil =>
    intro st
    show st = st.map (modify_user confirms [] snapshot)
    have h1 : st.map (modify_user confirms [] snapshot) = st.map (fun u => u) :=
      List.map_congr_left (fun u _ => rfl)
    rw [h1]
    simp
  | cons c t ih =>
    intro st
    show check_for_modified_users confirms t snapshot (modify_step confirms snapshot st c)
        = st.map (modify_user confirms (c :: t) snapshot)
    rw [ih, modify_step_map, List.map_map]
    rfl

theorem modify_user_step_of_ne (confirms : String → String) (snapshot : List RUser)
    (c : CsvUser) (u : RUser) (h : c.username_mapped ≠ u.id) :
    modify_user_step confirms snapshot c u = u := by
  unfold modify_user_step
  cases hf : snapshot.find? (fun v => v.id == c.username_mapped) with
  | none => rfl
  | some ncu =>
    dsimp only
    by_cases h1 : detect_changes c ncu = emptyChangeSet
    · rw [if_pos h1]
    · rw [if_neg h1]
      by_cases h2 : pyLower (confirms c.username_mapped) = "y"
      · rw [if_pos h2, if_neg (fun he => h he.symm)]
      · rw [if_neg h2]

theorem modify_user_eq_self (confirms : String → String) (snapshot : List RUser) :
    ∀ (csv_users : List CsvUser) (u : RUser),
    (∀ c ∈ csv_users, c.username_mapped ≠ u.id) →
    modify_user confirms csv_users snapshot u = u := by
  intro csv_users
  induction csv_users with
  | nil => intro u _; rfl
  | cons c t ih =>
    intro u h
    show modify_user confirms t snapshot (modify_user_step confirms snapshot c u) = u
    rw [modify_user_step_of_ne confirms snapshot c u (h c (List.mem_cons_self c t))]
    exact ih u (fun c' hc' => h c' (List.mem_cons_of_mem c hc'))

theorem modify_user_applies_once (confirms : String → String) (snapshot : List RUser) :
    ∀ (csv_users : List CsvUser), (csv_users.map CsvUser.username_mapped).Nodup →
    ∀ c ∈ csv_users, ∀ (u ncu : RUser), u.id = c.username_mapped →
    snapshot.find? (fun v => v.id == c.username_mapped) = some ncu →
    modify_user confirms csv_users snapshot u =
      (if detect_changes c ncu = emptyChangeSet then u
       else if pyLower (confirms c.username_mapped) = "y" then
         apply_changes_record u (detect_changes c ncu)
       else u) := by
  intro csv_users
  induction csv_users with
  | nil => intro _ c hc; simp at hc
  | cons a t ih =>
    intro hnd c hc u ncu hid hfind
    rw [List.map_cons, List.nodup_cons] at hnd
    have hstep : modify_user confirms (a :: t) snapshot u
        = modify_user confirms t snapshot (modify_user_step confirms snapshot a u) := rfl
    rcases List.mem_cons.mp hc with hca | hct
    · subst hca
      have hset : modify_user_step confirms snapshot c u
          = (if detect_changes c ncu = emptyChangeSet then u
             else if pyLower (confirms c.username_mapped) = "y" then
               apply_changes_record u (detect_changes c ncu)
             else u) := by
        unfold modify_user_step
        rw [hfind]
        dsimp only
        by_cases h1 : detect_changes c ncu = emptyChangeSet
        · rw [if_pos h1, if_pos h1]
        · rw [if_neg h1, if_neg h1]
          by_cases h2 : pyLower (confirms c.username_mapped) = "y"
          · rw [if_pos h2, if_pos h2, if_pos hid]
          · rw [if_neg h2, if_neg h2]
      rw [hstep, hset]
      apply modify_user_eq_self
      intro c' hc' heq
      apply hnd.1
      have : (if detect_changes c ncu = emptyChangeSet then u
             else if pyLower (confirms c.username_mapped) = "y" then
               apply_changes_record u (detect_changes c ncu)
             else u).id = u.id := by
        by_cases h1 : detect_changes c ncu = emptyChangeSet
        · rw [if_pos h1]
        · rw [if_neg h1]
          by_cases h2 : pyLower (confirms c.username_mapped) = "y"
          · rw [if_pos h2, apply_changes_record_id]
          · rw [if_neg h2]
      rw [this, hid] at heq
      exact heq ▸ List.mem_map_of_mem CsvUser.username_mapped hc'
    · have hne : a.username_mapped ≠ c.username_mapped := by
        intro he
        exact hnd.1 (he ▸ List.mem_map_of_mem CsvUser.username_mapped hct)
      rw [hstep, modify_user_step_of_ne confirms snapshot a u (fun he => hne (he.trans hid))]
      exact ih hnd.2 c hct u ncu hid hfind

theorem sync_user_to_groups_result_eq (current_groups new_groups : Finset String) :
    sync_user_to_groups_result current_groups new_groups = new_groups := by
  unfold sync_user_to_groups_result
  ext x
  simp only [Finset.mem_sdiff, Finset.mem_union]
  tauto

theorem csvGroupSet_strip_fixed (s : String) :
    ∀ x ∈ csvGroupSet s, pyStrip x = x := by
  intro x hx
  unfold csvGroupSet at hx
  rw [List.mem_toFinset, List.mem_filter] at hx
  obtain ⟨hmem, _⟩ := hx
  rw [List.mem_map] at hmem
  obtain ⟨y, _, hy⟩ := hmem
  rw [← hy, pyStrip_idem]

theorem ncGroupSet_csvGroupSet (s : String) :
    ncGroupSet (csvGroupSet s) = csvGroupSet s := by
  unfold ncGroupSet
  rw [Finset.image_congr (g := id) (fun x hx => csvGroupSet_strip_fixed s x hx), Finset.image_id]

theorem pyNorm_idem (s : String) :
    pyLower (pyStrip (pyLower (pyStrip s))) = pyLower (pyStrip s) := by
  rw [pyStrip_pyLower_comm, pyStrip_idem, pyLower_idem]

theorem detect_changes_after_apply (c : CsvUser) (u : RUser) :
    detect_changes c (apply_changes_record u (detect_changes c u)) = emptyChangeSet := by
  unfold detect_changes apply_changes_record emptyChangeSet
  dsimp only
  rw [ChangeSet.mk.injEq]
  refine ⟨?_, ?_, ?_, ?_⟩
  · by_cases h : pyLower (pyStrip c.email) ≠ pyLower (pyStrip u.email)
    · rw [if_pos h]
      show (if pyLower (pyStrip c.email) ≠ pyLower (pyStrip (pyLower (pyStrip c.email)))
            then _ else none) = none
      rw [if_neg (by rw [pyNorm_idem]; exact fun hh => hh rfl)]
    · rw [if_neg h]
      show (if pyLower (pyStrip c.email) ≠ pyLower (pyStrip u.email) then _ else none) = none
      rw [if_neg h]
  · by_cases h : pyStrip c.displayname ≠ pyStrip u.displayname
    · rw [if_pos h]
      show (if pyStrip c.displayname ≠ pyStrip (pyStrip c.displayname) then _ else none) = none
      rw [if_neg (by rw [pyStrip_idem]; exact fun hh => hh rfl)]
    · rw [if_neg h]
      show (if pyStrip c.displayname ≠ pyStrip u.displayname then _ else none) = none
      rw [if_neg h]
  · by_cases h : csvGroupSet c.groups ≠ ncGroupSet u.groups
    · rw [if_pos h]
      show (if csvGroupSet c.groups
            ≠ ncGroupSet (sync_user_to_groups_result u.groups (csvGroupSet c.groups))
            then _ else none) = none
      rw [if_neg (by
        rw [sync_user_to_groups_result_eq, ncGroupSet_csvGroupSet]
        exact fun hh => hh rfl)]
    · rw [if_neg h]
      show (if csvGroupSet c.groups ≠ ncGroupSet u.groups then _ else none) = none
      rw [if_neg h]
  · by_cases h : csvGroupSet c.subadmin ≠ ncGroupSet u.subadmin
    · rw [if_pos h]
      show (if csvGroupSet c.subadmin
            ≠ ncGroupSet (sync_user_to_groups_result u.subadmin (csvGroupSet c.subadmin))
            then _ else none) = none
      rw [if_neg (by
        rw [sync_user_to_groups_result_eq, ncGroupSet_csvGroupSet]
        exact fun hh => hh rfl)]
    · rw [if_neg h]
      show (if csvGroupSet c.subadmin ≠ ncGroupSet u.subadmin then _ else none) = none
      rw [if_neg h]

theorem mem_check_for_deleted_users (answers : String → String) (csv_users : List CsvUser)
    (st : List RUser) (u : RUser) :
    u ∈ check_for_deleted_users answers csv_users st ↔
      u ∈ st ∧ u.id ∉ deletions_confirmed answers csv_users st := by
  unfold check_for_deleted_users
  rw [List.mem_filter]
  simp

theorem deletions_confirmed_yes (csv_users : List CsvUser) (st : List RUser) :
    deletions_confirmed (fun _ => "y") csv_users st = prompted_deletions csv_users st := by
  unfold deletions_confirmed
  apply Finset.filter_true_of_mem
  intro x _
  change pyLower "y" = "y"
  decide

end NcUserImporter

namespace NcUserImporter

/-! ## C1: the Load phase does not exclude failed fetches -/

theorem fetch_and_populate_user_details_id (f : DetailFetch) (u : PartialNcUser) :
    (fetch_and_populate_user_details f u).id = u.id := by
  unfold fetch_and_populate_user_details
  cases hf : f.user_details u.id with
  | none => rfl
  | some de => cases de; rfl

theorem fetch_failed_eq {f : DetailFetch} {u : PartialNcUser}
    (h : f.user_details u.id = none) : fetch_and_populate_user_details f u = u := by
  unfold fetch_and_populate_user_details
  rw [h]

theorem load_remote_users_ids (f : DetailFetch) (ids : List String) :
    (load_remote_users f ids).map PartialNcUser.id = ids.filter (fun i => i != "") := by
  unfold load_remote_users parse_users_from_response
  rw [List.map_map, List.map_map]
  have h1 : ∀ i ∈ ids.filter (fun i => i != ""),
      ((PartialNcUser.id ∘ fetch_and_populate_user_details f) ∘ fun id =>
        ({ id := id, displayname := none, email := none, groups := [], subadmin := [] }
          : PartialNcUser)) i = i := by
    intro i _
    show (fetch_and_populate_user_details f
      { id := i, displayname := none, email := none, groups := [], subadmin := [] }).id = i
    rw [fetch_and_populate_user_details_id]
  rw [List.map_congr_left h1]
  simp

/-- C1 counterexample: with a remote listing containing only the user
`"ghost"` whose detail fetch fails, and an empty CSV, the claim says
`"ghost"` is excluded from deletion and modification detection; in the
code `"ghost"` both reaches the deletion prompt and is a key of the
modification-detection dictionary. -/
theorem load_failure_counterexample :
    "ghost" ∈ prompted_deletionsP (∅ : Finset String)
      (load_remote_users ⟨fun _ => none, fun _ => none, fun _ => none⟩ ["ghost"]) ∧
    "ghost" ∈ modification_candidate_ids
      (load_remote_users ⟨fun _ => none, fun _ => none, fun _ => none⟩ ["ghost"]) := by
  constructor
  · decide
  · decide

/-- C1 (amended): a remote user whose detail fetch fails is not excluded
from diffing: the record stays in the loaded list with its skeleton
fields, its id is among the modification-detection dictionary keys, and
when it is absent from the CSV it still reaches the deletion prompt
(its empty group list never contains the protecting `'admin'`). -/
theorem load_failure_not_excluded (f : DetailFetch) (ids : List String)
    (csvIds : Finset String) (uid : String)
    (hmem : uid ∈ ids) (hne : uid ≠ "")
    (hfail : f.user_details uid = none)
    (hnodup : (ids.filter (fun i => i != "")).Nodup) :
    ({ id := uid, displayname := none, email := none, groups := [], subadmin := [] }
        : PartialNcUser) ∈ load_remote_users f ids ∧
    uid ∈ modification_candidate_ids (load_remote_users f ids) ∧
    (uid ∉ csvIds → uid ∈ prompted_deletionsP csvIds (load_remote_users f ids)) := by
  have hmemf : uid ∈ ids.filter (fun i => i != "") :=
    List.mem_filter.mpr ⟨hmem, by simpa using hne⟩
  have hskel : ({ id := uid, displayname := none, email := none, groups := [], subadmin := [] }
      : PartialNcUser) ∈ parse_users_from_response ids := by
    unfold parse_users_from_response
    exact List.mem_map_of_mem _ hmemf
  have hfetch : fetch_and_populate_user_details f
      { id := uid, displayname := none, email := none, groups := [], subadmin := [] }
      = { id := uid, displayname := none, email := none, groups := [], subadmin := [] } :=
    fetch_failed_eq hfail
  have hload : ({ id := uid, displayname := none, email := none, groups := [], subadmin := [] }
      : PartialNcUser) ∈ load_remote_users f ids := by
    unfold load_remote_users
    exact List.mem_map.mpr ⟨_, hskel, hfetch⟩
  have hids := load_remote_users_ids f ids
  have hmemload : uid ∈ (load_remote_users f ids).map PartialNcUser.id := by
    rw [hids]
    exact hmemf
  refine ⟨hload, ?_, ?_⟩
  · unfold modification_candidate_ids
    rw [List.mem_toFinset]
    exact hmemload
  · intro hnot
    unfold prompted_deletionsP
    rw [Finset.mem_filter]
    refine ⟨?_, ?_⟩
    · unfold deleted_usersP
      rw [Finset.mem_sdiff, List.mem_toFinset]
      exact ⟨hmemload, hnot⟩
    · have hnd : ((load_remote_users f ids).map PartialNcUser.id).Nodup := by
        rw [hids]
        exact hnodup
      have hfind : (load_remote_users f ids).find? (fun v => v.id == uid)
          = some { id := uid, displayname := none, email := none, groups := [], subadmin := [] } :=
        find?_key_eq_of_nodup PartialNcUser.id _ hnd _ hload
      unfold deletion_promptedP
      rw [hfind]
      rfl

/-- Witness for C1 (amended) with one populated and one failed fetch. -/
theorem load_failure_not_excluded_witness :
    ({ id := "ghost", displayname := none, email := none, groups := [], subadmin := [] }
        : PartialNcUser)
      ∈ load_remote_users
          ⟨fun i => if i == "alice" then some ("Alice", "a@example.org") else none,
           fun _ => some ["users"], fun _ => some []⟩ ["alice", "ghost"] ∧
    "ghost" ∈ modification_candidate_ids
      (load_remote_users
        ⟨fun i => if i == "alice" then some ("Alice", "a@example.org") else none,
         fun _ => some ["users"], fun _ => some []⟩ ["alice", "ghost"]) ∧
    "ghost" ∈ prompted_deletionsP {"alice"}
      (load_remote_users
        ⟨fun i => if i == "alice" then some ("Alice", "a@example.org") else none,
         fun _ => some ["users"], fun _ => some []⟩ ["alice", "ghost"]) := by
  have h := load_failure_not_excluded
    ⟨fun i => if i == "alice" then some ("Alice", "a@example.org") else none,
     fun _ => some ["users"], fun _ => some []⟩ ["alice", "ghost"] {"alice"} "ghost"
    (by decide) (by decide) rfl (by decide)
  exact ⟨h.1, h.2.1, h.2.2 (by decide)⟩

/-! ## C4: protected admin users are never deletion candidates -/

/-- C4: a remote user whose group set contains `'admin'` is never passed to
the deletion prompt, survives the deletion phase untouched, and is still
present (same id) after the whole reconciliation run — for every CSV input
and every operator-input oracle. -/
theorem admin_never_deleted (answers confirms : String → String)
    (csv_users : List CsvUser) (st : List RUser)
    (hst : (st.map RUser.id).Nodup)
    (u : RUser) (hu : u ∈ st) (hadmin : "admin" ∈ u.groups) :
    u.id ∉ prompted_deletions csv_users st ∧
    u ∈ check_for_deleted_users answers csv_users st ∧
    ∃ v ∈ compare_and_sync_users answers confirms csv_users st, v.id = u.id := by
  have hfind : st.find? (fun v => v.id == u.id) = some u :=
    find?_key_eq_of_nodup RUser.id st hst u hu
  have hnp : u.id ∉ prompted_deletions csv_users st := by
    intro hmem
    unfold prompted_deletions at hmem
    rw [Finset.mem_filter] at hmem
    have h2 := hmem.2
    unfold deletion_prompted at h2
    rw [hfind, decide_eq_true_eq] at h2
    exact h2 hadmin
  have hnc : u.id ∉ deletions_confirmed answers csv_users st := fun hmem =>
    hnp (Finset.filter_subset _ _ hmem)
  have hdel : u ∈ check_for_deleted_users answers csv_users st :=
    (mem_check_for_deleted_users answers csv_users st u).mpr ⟨hu, hnc⟩
  refine ⟨hnp, hdel, modify_user confirms csv_users st u, ?_, modify_user_id _ _ _ _⟩
  unfold compare_and_sync_users
  rw [check_for_modified_users_map]
  exact List.mem_map_of_mem _ hdel

/-- Witness for C4: the operator answers `'y'` to everything, yet the
out-of-CSV admin user is neither prompted nor deleted. -/
theorem admin_never_deleted_witness :
    ("boss" : String) ∉ prompted_deletions []
      [{ id := "boss", displayname := "Boss", email := "b@example.org",
         groups := {"admin"}, subadmin := ∅ }] ∧
    ({ id := "boss", displayname := "Boss", email := "b@example.org",
       groups := {"admin"}, subadmin := ∅ } : RUser)
      ∈ check_for_deleted_users (fun _ => "y") []
        [{ id := "boss", displayname := "Boss", email := "b@example.org",
           groups := {"admin"}, subadmin := ∅ }] ∧
    ∃ v ∈ compare_and_sync_users (fun _ => "y") (fun _ => "y") []
        [{ id := "boss", displayname := "Boss", email := "b@example.org",
           groups := {"admin"}, subadmin := ∅ }],
      v.id = ({ id := "boss", displayname := "Boss", email := "b@example.org",
                groups := {"admin"}, subadmin := ∅ } : RUser).id :=
  admin_never_deleted (fun _ => "y") (fun _ => "y") []
    [{ id := "boss", displayname := "Boss", email := "b@example.org",
       groups := {"admin"}, subadmin := ∅ }]
    (by decide) _ (List.mem_cons_self _ _) (by decide)

/-! ## C5: declining a confirmation is a safe no-op -/

theorem modify_user_decline (confirms : String → String) (snapshot : List RUser) :
    ∀ (csv_users : List CsvUser) (u : RUser),
    (∀ c ∈ csv_users, c.username_mapped = u.id → pyLower (confirms c.username_mapped) ≠ "y") →
    modify_user confirms csv_users snapshot u = u := by
  intro csv_users
  induction csv_users with
  | nil => intro u _; rfl
  | cons c t ih =>
    intro u h
    have hstep : modify_user_step confirms snapshot c u = u := by
      unfold modify_user_step
      cases hf : snapshot.find? (fun v => v.id == c.username_mapped) with
      | none => rfl
      | some ncu =>
        dsimp only
        by_cases h1 : detect_changes c ncu = emptyChangeSet
        · rw [if_pos h1]
        · rw [if_neg h1]
          by_cases h2 : pyLower (confirms c.username_mapped) = "y"
          · rw [if_pos h2]
            by_cases h3 : u.id = c.username_mapped
            · exact absurd h2 (h c (List.mem_cons_self c t) h3.symm)
            · rw [if_neg h3]
          · rw [if_neg h2]
    show modify_user confirms t snapshot (modify_user_step confirms snapshot c u) = u
    rw [hstep]
    exact ih u (fun c' hc' => h c' (List.mem_cons_of_mem c hc'))

/-- C5: for a deletion candidate and for a user with a non-empty
ChangeSet, a mutation happens only when the interactive input, lowercased,
equals `'y'`: when every relevant answer differs from `'y'` the user
record survives the deletion phase and the whole run entirely unchanged. -/
theorem decline_is_noop (answers confirms : String → String)
    (csv_users : List CsvUser) (st : List RUser) (u : RUser) (hu : u ∈ st)
    (hdel : pyLower (answers u.id) ≠ "y")
    (hmod : ∀ c ∈ csv_users, c.username_mapped = u.id →
      pyLower (confirms c.username_mapped) ≠ "y") :
    u ∈ check_for_deleted_users answers csv_users st ∧
    u ∈ compare_and_sync_users answers confirms csv_users st := by
  have hnc : u.id ∉ deletions_confirmed answers csv_users st := by
    intro hmem
    unfold deletions_confirmed at hmem
    rw [Finset.mem_filter] at hmem
    exact hdel hmem.2
  have hkept : u ∈ check_for_deleted_users answers csv_users st :=
    (mem_check_for_deleted_users answers csv_users st u).mpr ⟨hu, hnc⟩
  refine ⟨hkept, ?_⟩
  have hself : modify_user confirms csv_users st u = u :=
    modify_user_decline confirms st csv_users u hmod
  unfold compare_and_sync_users
  rw [check_for_modified_users_map]
  exact hself ▸ List.mem_map_of_mem _ hkept

/-- Witness for C5: `bob` drifted from the CSV (different email) and the
operator declines with `'n'`; the record is completely untouched. -/
theorem decline_is_noop_witness :
    ({ id := "bob", displayname := "Bob", email := "old@example.org",
       groups := ∅, subadmin := ∅ } : RUser)
      ∈ check_for_deleted_users (fun _ => "n")
        [{ username := "bob", username_mapped := "bob", displayname := "Bob",
           email := "new@example.org", password := "", groups := "", subadmin := "" }]
        [{ id := "bob", displayname := "Bob", email := "old@example.org",
           groups := ∅, subadmin := ∅ }] ∧
    ({ id := "bob", displayname := "Bob", email := "old@example.org",
       groups := ∅, subadmin := ∅ } : RUser)
      ∈ compare_and_sync_users (fun _ => "n") (fun _ => "n")
        [{ username := "bob", username_mapped := "bob", displayname := "Bob",
           email := "new@example.org", password := "", groups := "", subadmin := "" }]
        [{ id := "bob", displayname := "Bob", email := "old@example.org",
           groups := ∅, subadmin := ∅ }] :=
  decline_is_noop (fun _ => "n") (fun _ => "n")
    [{ username := "bob", username_mapped := "bob", displayname := "Bob",
       email := "new@example.org", password := "", groups := "", subadmin := "" }]
    [{ id := "bob", displayname := "Bob", email := "old@example.org",
       groups := ∅, subadmin := ∅ }]
    _ (List.mem_cons_self _ _) (by decide)
    (by
      intro c hc _
      rw [List.mem_singleton] at hc
      subst hc
      decide)

end NcUserImporter

namespace NcUserImporter

/-! ## C3: re-running the engine on its own output -/

theorem modify_user_eq_self_of_empty (confirms : String → String) (snapshot : List RUser) :
    ∀ (csv_users : List CsvUser) (u : RUser),
    (∀ c ∈ csv_users, ∀ ncu : RUser,
      snapshot.find? (fun v => v.id == c.username_mapped) = some ncu →
      detect_changes c ncu = emptyChangeSet) →
    modify_user confirms csv_users snapshot u = u := by
  intro csv_users
  induction csv_users with
  | nil => intro u _; rfl
  | cons c t ih =>
    intro u h
    have hstep : modify_user_step confirms snapshot c u = u := by
      unfold modify_user_step
      cases hf : snapshot.find? (fun v => v.id == c.username_mapped) with
      | none => rfl
      | some ncu =>
        dsimp only
        rw [if_pos (h c (List.mem_cons_self c t) ncu hf)]
    show modify_user confirms t snapshot (modify_user_step confirms snapshot c u) = u
    rw [hstep]
    exact ih u (fun c' hc' => h c' (List.mem_cons_of_mem c hc'))

theorem run_engine_eq (csv_users : List CsvUser) (st : List RUser) :
    run_engine csv_users st
      = (check_for_deleted_users (fun _ => "y") csv_users st).map
          (modify_user (fun _ => "y") csv_users st) := by
  unfold run_engine compare_and_sync_users
  rw [check_for_modified_users_map]

theorem check_for_deleted_users_sublist (answers : String → String)
    (csv_users : List CsvUser) (st : List RUser) :
    List.Sublist (check_for_deleted_users answers csv_users st) st := by
  unfold check_for_deleted_users
  exact List.filter_sublist st

theorem run_engine_ids (csv_users : List CsvUser) (st : List RUser) :
    (run_engine csv_users st).map RUser.id
      = (check_for_deleted_users (fun _ => "y") csv_users st).map RUser.id := by
  rw [run_engine_eq, List.map_map]
  exact List.map_congr_left (fun v _ => modify_user_id _ _ _ _)

/-- C3 counterexample: one remote user in the protected `admin` group and
an empty CSV.  The first all-yes, all-success run leaves the user in place
(admin skip), so the second run's deletion set — the `remote ids - desired
ids` difference the engine computes — is again non-empty, contradicting
the claim's "empty deletion set". -/
theorem second_run_deletion_set_counterexample :
    deleted_users []
      (run_engine []
        [{ id := "boss", displayname := "Boss", email := "b@example.org",
           groups := {"admin"}, subadmin := ∅ }]) ≠ ∅ := by
  decide

/-- C3 (amended): running the engine (all confirmations `'y'`, all remote
operations succeeding) and re-running it on the resulting state with the
unchanged CSV gives a second run in which no deletion prompt is issued
(every remaining deletion candidate is a protected admin), every computed
ChangeSet is empty, and the state is a fixed point — provided the CSV
usernames and the remote ids are duplicate-free. -/
theorem second_run_stable (csv_users : List CsvUser) (st : List RUser)
    (hcsv : (csv_users.map CsvUser.username_mapped).Nodup)
    (hst : (st.map RUser.id).Nodup) :
    prompted_deletions csv_users (run_engine csv_users st) = ∅ ∧
    (∀ c ∈ csv_users, ∀ u ∈ run_engine csv_users st, u.id = c.username_mapped →
      detect_changes c u = emptyChangeSet) ∧
    run_engine csv_users (run_engine csv_users st) = run_engine csv_users st := by
  have hrun := run_engine_eq csv_users st
  have hDsub := check_for_deleted_users_sublist (fun _ => "y") csv_users st
  have hDN : ((check_for_deleted_users (fun _ => "y") csv_users st).map RUser.id).Nodup :=
    List.Nodup.sublist (hDsub.map RUser.id) hst
  have hRids := run_engine_ids csv_users st
  have hRN : ((run_engine csv_users st).map RUser.id).Nodup := by
    rw [hRids]
    exact hDN
  -- Part 2: every ChangeSet on the second run is empty.
  have hpart2 : ∀ c ∈ csv_users, ∀ u ∈ run_engine csv_users st,
      u.id = c.username_mapped → detect_changes c u = emptyChangeSet := by
    intro c hc u hu hid
    rw [hrun] at hu
    rcases List.mem_map.mp hu with ⟨v, hvD, hveq⟩
    have hvid : v.id = c.username_mapped := by
      rw [← hid, ← hveq, modify_user_id]
    have hvst : v ∈ st := hDsub.subset hvD
    have hfind : st.find? (fun x => x.id == c.username_mapped) = some v := by
      have h0 := find?_key_eq_of_nodup RUser.id st hst v hvst
      rw [hvid] at h0
      exact h0
    have happ := modify_user_applies_once (fun _ => "y") st csv_users hcsv c hc v v hvid hfind
    by_cases hemp : detect_changes c v = emptyChangeSet
    · rw [if_pos hemp] at happ
      rw [← hveq, happ]
      exact hemp
    · rw [if_neg hemp, if_pos (show pyLower ((fun _ : String => "y") c.username_mapped) = "y"
        by change pyLower "y" = "y"; decide)] at happ
      rw [← hveq, happ]
      exact detect_changes_after_apply c v
  -- Part 1: no deletion prompt on the second run.
  have hpart1 : prompted_deletions csv_users (run_engine csv_users st) = ∅ := by
    apply Finset.eq_empty_iff_forall_not_mem.mpr
    intro username hmem
    unfold prompted_deletions at hmem
    rw [Finset.mem_filter] at hmem
    obtain ⟨hdel_mem, hprompt⟩ := hmem
    unfold deleted_users at hdel_mem
    rw [Finset.mem_sdiff] at hdel_mem
    obtain ⟨hinR, hnotcsv⟩ := hdel_mem
    unfold nextcloud_usernames at hinR
    rw [List.mem_toFinset] at hinR
    rcases List.mem_map.mp hinR with ⟨w, hwR, hwid⟩
    have hwR2 := hwR
    rw [hrun] at hwR2
    rcases List.mem_map.mp hwR2 with ⟨v, hvD, hveq⟩
    have hvid : v.id = username := by
      rw [← hwid, ← hveq, modify_user_id]
    have hframe : modify_user (fun _ => "y") csv_users st v = v := by
      apply modify_user_eq_self
      intro c hc heq
      apply hnotcsv
      unfold csv_usernames
      rw [List.mem_toFinset]
      have : c.username_mapped = username := heq.trans hvid
      exact this ▸ List.mem_map_of_mem CsvUser.username_mapped hc
    have hwv : w = v := by rw [← hveq, hframe]
    have hvfacts := (mem_check_for_deleted_users (fun _ => "y") csv_users st v).mp hvD
    obtain ⟨hvst, hvnc⟩ := hvfacts
    rw [deletions_confirmed_yes] at hvnc
    have hvdel : v.id ∈ deleted_users csv_users st := by
      unfold deleted_users nextcloud_usernames csv_usernames
      rw [Finset.mem_sdiff, List.mem_toFinset, List.mem_toFinset]
      refine ⟨List.mem_map_of_mem RUser.id hvst, ?_⟩
      intro hv
      apply hnotcsv
      unfold csv_usernames
      rw [List.mem_toFinset]
      exact hvid ▸ hv
    have hpf : ¬ (deletion_prompted st v.id = true) := by
      intro hp
      exact hvnc (Finset.mem_filter.mpr ⟨hvdel, hp⟩)
    have hfindst : st.find? (fun x => x.id == v.id) = some v :=
      find?_key_eq_of_nodup RUser.id st hst v hvst
    have hadmin : "admin" ∈ v.groups := by
      by_contra hna
      apply hpf
      unfold deletion_prompted
      rw [hfindst]
      simpa using hna
    have hfindR : (run_engine csv_users st).find? (fun x => x.id == username) = some w := by
      have h0 := find?_key_eq_of_nodup RUser.id _ hRN w hwR
      rw [hwid] at h0
      exact h0
    unfold deletion_prompted at hprompt
    rw [hfindR, decide_eq_true_eq] at hprompt
    exact hprompt (hwv ▸ hadmin)
  -- Part 3: the state is a fixed point of the second run.
  refine ⟨hpart1, hpart2, ?_⟩
  have hconf2 : deletions_confirmed (fun _ => "y") csv_users (run_engine csv_users st) = ∅ := by
    rw [deletions_confirmed_yes, hpart1]
  have hdelR : check_for_deleted_users (fun _ => "y") csv_users (run_engine csv_users st)
      = run_engine csv_users st := by
    unfold check_for_deleted_users
    apply List.filter_eq_self.mpr
    intro u _
    rw [hconf2]
    simp
  have hmodR : ∀ u : RUser,
      modify_user (fun _ => "y") csv_users (run_engine csv_users st) u = u := by
    intro u
    apply modify_user_eq_self_of_empty
    intro c hc ncu hfind
    have hmem := List.mem_of_find?_eq_some hfind
    have hid : ncu.id = c.username_mapped := by
      have := List.find?_some hfind
      simpa using this
    exact hpart2 c hc ncu hmem hid
  show compare_and_sync_users (fun _ => "y") (fun _ => "y") csv_users (run_engine csv_users st)
      = run_engine csv_users st
  unfold compare_and_sync_users
  rw [hdelR, check_for_modified_users_map, List.map_congr_left (fun u _ => hmodR u)]
  simp

/-- Witness for C3 (amended): one drifted user and one stale user; after
the first run the second run is change-free. -/
theorem second_run_stable_witness :
    prompted_deletions
      [{ username := "alice", username_mapped := "alice", displayname := "Alice",
         email := "a@example.org", password := "", groups := "g1", subadmin := "" }]
      (run_engine
        [{ username := "alice", username_mapped := "alice", displayname := "Alice",
           email := "a@example.org", password := "", groups := "g1", subadmin := "" }]
        [{ id := "alice", displayname := "Old", email := "old@example.org",
           groups := {"old"}, subadmin := ∅ },
         { id := "gone", displayname := "Gone", email := "g@example.org",
           groups := ∅, subadmin := ∅ }]) = ∅ ∧
    (∀ c ∈ [{ username := "alice", username_mapped := "alice", displayname := "Alice",
              email := "a@example.org", password := "", groups := "g1", subadmin := "" }],
      ∀ u ∈ run_engine
        [{ username := "alice", username_mapped := "alice", displayname := "Alice",
           email := "a@example.org", password := "", groups := "g1", subadmin := "" }]
        [{ id := "alice", displayname := "Old", email := "old@example.org",
           groups := {"old"}, subadmin := ∅ },
         { id := "gone", displayname := "Gone", email := "g@example.org",
           groups := ∅, subadmin := ∅ }],
      u.id = c.username_mapped → detect_changes c u = emptyChangeSet) ∧
    run_engine
      [{ username := "alice", username_mapped := "alice", displayname := "Alice",
         email := "a@example.org", password := "", groups := "g1", subadmin := "" }]
      (run_engine
        [{ username := "alice", username_mapped := "alice", displayname := "Alice",
           email := "a@example.org", password := "", groups := "g1", subadmin := "" }]
        [{ id := "alice", displayname := "Old", email := "old@example.org",
           groups := {"old"}, subadmin := ∅ },
         { id := "gone", displayname := "Gone", email := "g@example.org",
           groups := ∅, subadmin := ∅ }])
      = run_engine
        [{ username := "alice", username_mapped := "alice", displayname := "Alice",
           email := "a@example.org", password := "", groups := "g1", subadmin := "" }]
        [{ id := "alice", displayname := "Old", email := "old@example.org",
           groups := {"old"}, subadmin := ∅ },
         { id := "gone", displayname := "Gone", email := "g@example.org",
           groups := ∅, subadmin := ∅ }] :=
  second_run_stable
    [{ username := "alice", username_mapped := "alice", displayname := "Alice",
       email := "a@example.org", password := "", groups := "g1", subadmin := "" }]
    [{ id := "alice", displayname := "Old", email := "old@example.org",
       groups := {"old"}, subadmin := ∅ },
     { id := "gone", displayname := "Gone", email := "g@example.org",
       groups := ∅, subadmin := ∅ }]
    (by decide) (by decide)

end NcUserImporter

namespace NcUserImporter

/-! ## C6: phase ordering inside the group/subadmin syncs -/

theorem ensure_groups_exist_loop_trace (existing : Finset String) (createOk : String → Bool) :
    ∀ l : List String, ∀ e ∈ (ensure_groups_exist_loop existing createOk l).2,
      e.isCreate = true := by
  intro l
  induction l with
  | nil => intro e he; simp [ensure_groups_exist_loop] at he
  | cons g rest ih =>
    intro e he
    unfold ensure_groups_exist_loop at he
    by_cases h1 : g ∈ existing
    · rw [if_pos h1] at he
      exact ih e he
    · rw [if_neg h1] at he
      by_cases h2 : createOk g
      · rw [if_pos h2] at he
        rcases List.mem_cons.mp he with he | he
        · rw [he]; rfl
        · exact ih e he
      · rw [if_neg h2] at he
        rw [List.mem_singleton] at he
        rw [he]; rfl

theorem ensure_groups_exist_trace (get_groups_ok : Bool) (existing : Finset String)
    (createOk : String → Bool) (l : List String) :
    ∀ e ∈ (ensure_groups_exist get_groups_ok existing createOk l).2, e.isCreate = true := by
  intro e he
  unfold ensure_groups_exist at he
  by_cases h : get_groups_ok
  · rw [if_pos h] at he
    exact ensure_groups_exist_loop_trace existing createOk l e he
  · rw [if_neg h] at he
    simp at he

theorem sync_groups_ens_trace (get_groups_ok : Bool) (existing : Finset String)
    (createOk : String → Bool) (l : List String) :
    ∀ e ∈ (sync_groups_ens get_groups_ok existing createOk l).2, e.isCreate = true := by
  intro e he
  unfold sync_groups_ens at he
  by_cases h : l.isEmpty
  · rw [if_pos h] at he; simp at he
  · rw [if_neg h] at he
    exact ensure_groups_exist_trace get_groups_ok existing createOk l e he

theorem add_user_to_groups_trace (addOk : String → Bool) (l : List String) :
    ∀ e ∈ (add_user_to_groups addOk l).2, e.isAddition = true := by
  intro e he
  unfold add_user_to_groups at he
  rcases List.mem_map.mp he with ⟨g, _, hg⟩
  rw [← hg]; rfl

theorem sync_groups_adds_trace (addOk : String → Bool) (l : List String) :
    ∀ e ∈ (sync_groups_adds addOk l).2, e.isAddition = true := by
  intro e he
  unfold sync_groups_adds at he
  by_cases h : l.isEmpty
  · rw [if_pos h] at he; simp at he
  · rw [if_neg h] at he
    exact add_user_to_groups_trace addOk l e he

theorem remove_user_from_groups_trace (removeOk : String → Bool) :
    ∀ l : List String, ∀ e ∈ (remove_user_from_groups removeOk l).2, e.isRemoval = true := by
  intro l
  induction l with
  | nil => intro e he; simp [remove_user_from_groups] at he
  | cons g rest ih =>
    intro e he
    unfold remove_user_from_groups at he
    by_cases h1 : removeOk g
    · rw [if_pos h1] at he
      rcases List.mem_cons.mp he with he | he
      · rw [he]; rfl
      · exact ih e he
    · rw [if_neg h1] at he
      rw [List.mem_singleton] at he
      rw [he]; rfl

theorem sync_groups_rems_trace (removeOk : String → Bool) (l : List String) :
    ∀ e ∈ (sync_groups_rems removeOk l).2, e.isRemoval = true := by
  intro e he
  unfold sync_groups_rems at he
  by_cases h : l.isEmpty
  · rw [if_pos h] at he; simp at he
  · rw [if_neg h] at he
    exact remove_user_from_groups_trace removeOk l e he

theorem promote_loop_trace (promoteOk : String → Bool) :
    ∀ l : List String, ∀ e ∈ (promote_loop promoteOk l).2, e.isAddition = true := by
  intro l
  induction l with
  | nil => intro e he; simp [promote_loop] at he
  | cons g rest ih =>
    intro e he
    unfold promote_loop at he
    by_cases h1 : promoteOk g
    · rw [if_pos h1] at he
      rcases List.mem_cons.mp he with he | he
      · rw [he]; rfl
      · exact ih e he
    · rw [if_neg h1] at he
      rw [List.mem_singleton] at he
      rw [he]; rfl

theorem promote_user_in_group_trace (get_groups_ok2 : Bool) (existing2 : Finset String)
    (createOk2 promoteOk : String → Bool) (l : List String) :
    ∃ tc ta, (promote_user_in_group get_groups_ok2 existing2 createOk2 promoteOk l).2
        = tc ++ ta ∧
      (∀ e ∈ tc, e.isCreate = true) ∧ (∀ e ∈ ta, e.isAddition = true) := by
  unfold promote_user_in_group
  dsimp only
  by_cases hE : (ensure_groups_exist get_groups_ok2 existing2 createOk2 l).1 = false
  · rw [if_pos hE]
    exact ⟨(ensure_groups_exist get_groups_ok2 existing2 createOk2 l).2, [],
      (List.append_nil _).symm,
      ensure_groups_exist_trace get_groups_ok2 existing2 createOk2 l, by simp⟩
  · rw [if_neg hE]
    exact ⟨(ensure_groups_exist get_groups_ok2 existing2 createOk2 l).2,
      (promote_loop promoteOk l).2, rfl,
      ensure_groups_exist_trace get_groups_ok2 existing2 createOk2 l,
      promote_loop_trace promoteOk l⟩

theorem sync_subadmin_ens_trace (get_groups_ok : Bool) (existing : Finset String)
    (createOk : String → Bool) (l : List String) :
    ∀ e ∈ (sync_subadmin_ens get_groups_ok existing createOk l).2, e.isCreate = true := by
  intro e he
  unfold sync_subadmin_ens at he
  by_cases h : l.isEmpty
  · rw [if_pos h] at he; simp at he
  · rw [if_neg h] at he
    exact ensure_groups_exist_trace get_groups_ok existing createOk l e he

theorem sync_subadmin_promote_trace (get_groups_ok2 : Bool) (existing2 : Finset String)
    (createOk2 promoteOk : String → Bool) (l : List String) :
    ∃ tc ta, (sync_subadmin_promote get_groups_ok2 existing2 createOk2 promoteOk l).2
        = tc ++ ta ∧
      (∀ e ∈ tc, e.isCreate = true) ∧ (∀ e ∈ ta, e.isAddition = true) := by
  unfold sync_subadmin_promote
  by_cases h : l.isEmpty
  · rw [if_pos h]
    exact ⟨[], [], rfl, by simp, by simp⟩
  · rw [if_neg h]
    exact promote_user_in_group_trace get_groups_ok2 existing2 createOk2 promoteOk l

theorem sync_subadmin_demote_trace (l : List String) :
    ∀ e ∈ sync_subadmin_demote l, e.isRemoval = true := by
  intro e he
  unfold sync_subadmin_demote at he
  by_cases h : l.isEmpty
  · rw [if_pos h] at he; simp at he
  · rw [if_neg h] at he
    unfold demote_user_in_group at he
    rcases List.mem_map.mp he with ⟨g, _, hg⟩
    rw [← hg]; rfl

theorem sync_user_to_groups_phases (get_groups_ok : Bool) (existing : Finset String)
    (createOk addOk removeOk : String → Bool) (current_groups new_groups : Finset String) :
    (∃ tc ta tr,
      (sync_user_to_groups get_groups_ok existing createOk addOk removeOk
        current_groups new_groups).2 = tc ++ ta ++ tr ∧
      (∀ e ∈ tc, e.isCreate = true) ∧ (∀ e ∈ ta, e.isAddition = true) ∧
      (∀ e ∈ tr, e.isRemoval = true)) ∧
    (∀ g, ApiCall.removeFromGroup g ∈
        (sync_user_to_groups get_groups_ok existing createOk addOk removeOk
          current_groups new_groups).2 →
      setToList (new_groups \ current_groups) = [] ∨
      ((ensure_groups_exist get_groups_ok existing createOk
          (setToList (new_groups \ current_groups))).1 = true ∧
        (setToList (new_groups \ current_groups)).all addOk = true)) := by
  unfold sync_user_to_groups
  dsimp only
  by_cases hE : (sync_groups_ens get_groups_ok existing createOk
      (setToList (new_groups \ current_groups))).1 = false
  · rw [if_pos hE]
    constructor
    · exact ⟨(sync_groups_ens get_groups_ok existing createOk
          (setToList (new_groups \ current_groups))).2, [], [], by simp,
        sync_groups_ens_trace get_groups_ok existing createOk _, by simp, by simp⟩
    · intro g hg
      have := sync_groups_ens_trace get_groups_ok existing createOk _ _ hg
      simp [ApiCall.isCreate] at this
  · rw [if_neg hE]
    by_cases hA : (sync_groups_adds addOk (setToList (new_groups \ current_groups))).1 = false
    · rw [if_pos hA]
      constructor
      · exact ⟨(sync_groups_ens get_groups_ok existing createOk
            (setToList (new_groups \ current_groups))).2,
          (sync_groups_adds addOk (setToList (new_groups \ current_groups))).2, [], by simp,
          sync_groups_ens_trace get_groups_ok existing createOk _,
          sync_groups_adds_trace addOk _, by simp⟩
      · intro g hg
        rcases List.mem_append.mp hg with hg | hg
        · have := sync_groups_ens_trace get_groups_ok existing createOk _ _ hg
          simp [ApiCall.isCreate] at this
        · have := sync_groups_adds_trace addOk _ _ hg
          simp [ApiCall.isAddition] at this
    · rw [if_neg hA]
      constructor
      · exact ⟨(sync_groups_ens get_groups_ok existing createOk
            (setToList (new_groups \ current_groups))).2,
          (sync_groups_adds addOk (setToList (new_groups \ current_groups))).2,
          (sync_groups_rems removeOk (setToList (current_groups \ new_groups))).2,
          by simp [List.append_assoc],
          sync_groups_ens_trace get_groups_ok existing createOk _,
          sync_groups_adds_trace addOk _,
          sync_groups_rems_trace removeOk _⟩
      · intro g _
        by_cases hadd : (setToList (new_groups \ current_groups)).isEmpty
        · left
          exact List.isEmpty_iff.mp hadd
        · right
          constructor
          · have h1 := hE
            unfold sync_groups_ens at h1
            rw [if_neg hadd] at h1
            exact Bool.not_eq_false _ ▸ (by simpa using h1)
          · have h2 := hA
            unfold sync_groups_adds at h2
            rw [if_neg hadd] at h2
            unfold add_user_to_groups at h2
            simpa using h2

theorem sync_subadmin_groups_phases (get_groups_ok : Bool) (existing : Finset String)
    (createOk : String → Bool) (get_groups_ok2 : Bool) (existing2 : Finset String)
    (createOk2 promoteOk : String → Bool) (current_subadmin new_subadmin : Finset String) :
    (∃ tc ta tr,
      (sync_subadmin_groups get_groups_ok existing createOk get_groups_ok2 existing2
        createOk2 promoteOk current_subadmin new_subadmin).2 = tc ++ ta ++ tr ∧
      (∀ e ∈ tc, e.isCreate = true) ∧ (∀ e ∈ ta, e.isAddition = true) ∧
      (∀ e ∈ tr, e.isRemoval = true)) ∧
    (∀ g, ApiCall.demoteSubadmin g ∈
        (sync_subadmin_groups get_groups_ok existing createOk get_groups_ok2 existing2
          createOk2 promoteOk current_subadmin new_subadmin).2 →
      setToList (new_subadmin \ current_subadmin) = [] ∨
      ((ensure_groups_exist get_groups_ok existing createOk
          (setToList (new_subadmin \ current_subadmin))).1 = true ∧
        (promote_user_in_group get_groups_ok2 existing2 createOk2 promoteOk
          (setToList (new_subadmin \ current_subadmin))).1 = true)) := by
  unfold sync_subadmin_groups
  dsimp only
  obtain ⟨tc', ta', hpr, htc', hta'⟩ := sync_subadmin_promote_trace get_groups_ok2 existing2
    createOk2 promoteOk (setToList (new_subadmin \ current_subadmin))
  by_cases hE : (sync_subadmin_ens get_groups_ok existing createOk
      (setToList (new_subadmin \ current_subadmin))).1 = false
  · rw [if_pos hE]
    constructor
    · exact ⟨(sync_subadmin_ens get_groups_ok existing createOk
          (setToList (new_subadmin \ current_subadmin))).2, [], [], by simp,
        sync_subadmin_ens_trace get_groups_ok existing createOk _, by simp, by simp⟩
    · intro g hg
      have := sync_subadmin_ens_trace get_groups_ok existing createOk _ _ hg
      simp [ApiCall.isCreate] at this
  · rw [if_neg hE]
    by_cases hP : (sync_subadmin_promote get_groups_ok2 existing2 createOk2 promoteOk
        (setToList (new_subadmin \ current_subadmin))).1 = false
    · rw [if_pos hP]
      constructor
      · refine ⟨(sync_subadmin_ens get_groups_ok existing createOk
            (setToList (new_subadmin \ current_subadmin))).2 ++ tc', ta', [], ?_, ?_, hta', by simp⟩
        · rw [hpr]
          simp [List.append_assoc]
        · intro e he
          rcases List.mem_append.mp he with he | he
          · exact sync_subadmin_ens_trace get_groups_ok existing createOk _ e he
          · exact htc' e he
      · intro g hg
        rcases List.mem_append.mp hg with hg | hg
        · have := sync_subadmin_ens_trace get_groups_ok existing createOk _ _ hg
          simp [ApiCall.isCreate] at this
        · rw [hpr] at hg
          rcases List.mem_append.mp hg with hg | hg
          · have := htc' _ hg
            simp [ApiCall.isCreate] at this
          · have := hta' _ hg
            simp [ApiCall.isAddition] at this
    · rw [if_neg hP]
      constructor
      · refine ⟨(sync_subadmin_ens get_groups_ok existing createOk
            (setToList (new_subadmin \ current_subadmin))).2 ++ tc', ta',
            sync_subadmin_demote (setToList (current_subadmin \ new_subadmin)), ?_, ?_, hta',
            sync_subadmin_demote_trace _⟩
        · rw [hpr]
          simp [List.append_assoc]
        · intro e he
          rcases List.mem_append.mp he with he | he
          · exact sync_subadmin_ens_trace get_groups_ok existing createOk _ e he
          · exact htc' e he
      · intro g _
        by_cases hadd : (setToList (new_subadmin \ current_subadmin)).isEmpty
        · left
          exact List.isEmpty_iff.mp hadd
        · right
          constructor
          · have h1 := hE
            unfold sync_subadmin_ens at h1
            rw [if_neg hadd] at h1
            simpa using h1
          · have h2 := hP
            unfold sync_subadmin_promote at h2
            rw [if_neg hadd] at h2
            simpa using h2

/-- C6: in both `sync_user_to_groups` and `sync_subadmin_groups`, the
attempted mutating API calls always come in the order
group-creations, then membership/role additions, then removals; and a
removal (demotion) is only ever attempted when either there was nothing to
add, or the group-creation (`ensure_groups_exist`) phase succeeded and
every addition succeeded. -/
theorem sync_phase_ordering :
    (∀ (get_groups_ok : Bool) (existing : Finset String)
       (createOk addOk removeOk : String → Bool)
       (current_groups new_groups : Finset String),
      (∃ tc ta tr,
        (sync_user_to_groups get_groups_ok existing createOk addOk removeOk
          current_groups new_groups).2 = tc ++ ta ++ tr ∧
        (∀ e ∈ tc, e.isCreate = true) ∧ (∀ e ∈ ta, e.isAddition = true) ∧
        (∀ e ∈ tr, e.isRemoval = true)) ∧
      (∀ g, ApiCall.removeFromGroup g ∈
          (sync_user_to_groups get_groups_ok existing createOk addOk removeOk
            current_groups new_groups).2 →
        setToList (new_groups \ current_groups) = [] ∨
        ((ensure_groups_exist get_groups_ok existing createOk
            (setToList (new_groups \ current_groups))).1 = true ∧
          (setToList (new_groups \ current_groups)).all addOk = true))) ∧
    (∀ (get_groups_ok : Bool) (existing : Finset String) (createOk : String → Bool)
       (get_groups_ok2 : Bool) (existing2 : Finset String)
       (createOk2 promoteOk : String → Bool)
       (current_subadmin new_subadmin : Finset String),
      (∃ tc ta tr,
        (sync_subadmin_groups get_groups_ok existing createOk get_groups_ok2 existing2
          createOk2 promoteOk current_subadmin new_subadmin).2 = tc ++ ta ++ tr ∧
        (∀ e ∈ tc, e.isCreate = true) ∧ (∀ e ∈ ta, e.isAddition = true) ∧
        (∀ e ∈ tr, e.isRemoval = true)) ∧
      (∀ g, ApiCall.demoteSubadmin g ∈
          (sync_subadmin_groups get_groups_ok existing createOk get_groups_ok2 existing2
            createOk2 promoteOk current_subadmin new_subadmin).2 →
        setToList (new_subadmin \ current_subadmin) = [] ∨
        ((ensure_groups_exist get_groups_ok existing createOk
            (setToList (new_subadmin \ current_subadmin))).1 = true ∧
          (promote_user_in_group get_groups_ok2 existing2 createOk2 promoteOk
            (setToList (new_subadmin \ current_subadmin))).1 = true))) :=
  ⟨fun a b c d e f g => sync_user_to_groups_phases a b c d e f g,
   fun a b c d e f g h i => sync_subadmin_groups_phases a b c d e f g h i⟩

/-- Witness for C6: a concrete sync with one creation, one addition and
one removal; the trace decomposes into the three phases. -/
theorem sync_phase_ordering_witness :
    ∃ tc ta tr,
      (sync_user_to_groups true {"old"} (fun _ => true) (fun _ => true) (fun _ => true)
        {"old"} {"new"}).2 = tc ++ ta ++ tr ∧
      (∀ e ∈ tc, e.isCreate = true) ∧ (∀ e ∈ ta, e.isAddition = true) ∧
      (∀ e ∈ tr, e.isRemoval = true) :=
  (sync_phase_ordering.1 true {"old"} (fun _ => true) (fun _ => true) (fun _ => true)
    {"old"} {"new"}).1

end NcUserImporter
